import Mathlib

/-
Verification of the battle-log interpreter of `src/fetch_replays.py`
(repository caikitlearn/pokemon-science).

The interpreter is the event loop of `parse_replay_log`: it splits the log
into lines, splits each stripped line on the pipe character, and dispatches
on the tag found in field 1, mutating three tables
(`player_stats`, `pokemon_stats`, `active_pokemon`) plus the scalars
`n_turns`, `winner` and the loop-carried Python local `new_hp`.

Embedding conventions:
  * Python dicts are association lists (`Dict K V`); assignment (`dSet`)
    replaces the first matching key in place, preserving insertion order,
    and appends otherwise, exactly like CPython dicts.
  * `defaultdict` reads that the source performs only to look at a value
    are rendered as `dGetD` (lookup with default).  Auto-vivification is
    written back wherever the source's access is part of a mutation, so
    every field value agrees with the source; the only difference is that
    a purely-read entry is not inserted, which no statement below observes.
  * Python exceptions (`KeyError`, `ValueError` from `int`, `IndexError`
    from list/`split()[-1]` indexing, `NameError` from reading the local
    `new_hp` before any assignment) become `Except.error`; an error aborts
    the line fold, matching an uncaught exception unwinding the loop.
  * Python string operations are re-implemented structurally on the
    character list (`String.data`) so that every definition evaluates by
    kernel reduction: `str.split(c)`, `str.split()` (whitespace,
    empties dropped), `str.strip()`, `sep.join`, slicing `[:2]`,
    substring containment (`in`), and `int(...)` (optional sign, decimal
    digits, surrounding whitespace).
  * Machine integers are `Int`: Python ints are unbounded, and the damage
    counters can in fact go negative (see the statements for claim C3).
-/

namespace PokemonScience

/-- Kinds of Python exception the interpreter loop can raise. -/
inductive PyErr where
  | keyError
  | valueError
  | indexError
  | nameError
deriving DecidableEq, Repr

/-! ### Python string primitives, re-implemented structurally -/

/-- Characters for which Python `str.isspace`/`strip`/`split()` treat a
character as whitespace (ASCII subset; the logs are ASCII). -/
def pyIsSpace (c : Char) : Bool :=
  c = ' ' || c = '\t' || c = '\n' || c = '\r' || c = '\x0b' || c = '\x0c'

/-- Split a character list at every occurrence of `sep`, keeping empty
segments, like Python `s.split(sep)` for a one-character separator. -/
def splitOnChar (sep : Char) : List Char → List (List Char)
  | [] => [[]]
  | c :: cs =>
    match splitOnChar sep cs with
    | [] => [[]]
    | h :: t => if c = sep then [] :: h :: t else (c :: h) :: t

/-- Python `s.split(sep)` for a one-character separator. -/
def pySplit (sep : Char) (s : String) : List String :=
  (splitOnChar sep s.data).map String.mk

/-- Split a character list at every character satisfying `p`, keeping
empty segments. -/
def splitOnPred (p : Char → Bool) : List Char → List (List Char)
  | [] => [[]]
  | c :: cs =>
    match splitOnPred p cs with
    | [] => [[]]
    | h :: t => if p c then [] :: h :: t else (c :: h) :: t

/-- Python `s.split()` with no argument: split on whitespace runs and drop
empty segments. -/
def pySplitWs (s : String) : List String :=
  ((splitOnPred pyIsSpace s.data).filter (fun l => !l.isEmpty)).map String.mk

/-- Drop leading and trailing whitespace from a character list. -/
def stripList (l : List Char) : List Char :=
  ((l.dropWhile pyIsSpace).reverse.dropWhile pyIsSpace).reverse

/-- Python `s.strip()`. -/
def pyStrip (s : String) : String := String.mk (stripList s.data)

/-- Helper for `pyJoin`: interleave `sep` between the segments. -/
def joinAux (sep : Char) : List (List Char) → List Char
  | [] => []
  | [l] => l
  | l :: l₂ :: ls => l ++ sep :: joinAux sep (l₂ :: ls)

/-- Python `sep.join(segments)` for a one-character separator. -/
def pyJoin (sep : Char) (l : List String) : String :=
  String.mk (joinAux sep (l.map String.data))

/-- Python slicing `s[:n]`. -/
def pyTake (n : Nat) (s : String) : String := String.mk (s.data.take n)

/-- Whether `needle` occurs at the head of `hay`. -/
def startsList : List Char → List Char → Bool
  | [], _ => true
  | _ :: _, [] => false
  | a :: as, b :: bs => a = b && startsList as bs

/-- Whether `needle` occurs anywhere in `hay` (substring containment). -/
def containsList (needle : List Char) : List Char → Bool
  | [] => startsList needle []
  | c :: cs => startsList needle (c :: cs) || containsList needle cs

/-- Python `needle in hay` on strings. -/
def pyIn (needle hay : String) : Bool := containsList needle.data hay.data

/-- Whether every character of the list is a decimal digit. -/
def allDigits : List Char → Bool
  | [] => true
  | c :: cs => c.isDigit && allDigits cs

/-- Decimal value of a digit list. -/
def natOfDigits (l : List Char) : Nat :=
  l.foldl (fun a c => a * 10 + (c.toNat - 48)) 0

/-- Python `int(s)`: strip whitespace, optional sign, then a nonempty run
of decimal digits; anything else raises `ValueError`. -/
def pyInt (s : String) : Except PyErr Int :=
  match stripList s.data with
  | '-' :: rest =>
    if rest.isEmpty || !allDigits rest then .error .valueError
    else .ok (-(natOfDigits rest : Int))
  | '+' :: rest =>
    if rest.isEmpty || !allDigits rest then .error .valueError
    else .ok ((natOfDigits rest : Int))
  | t =>
    if t.isEmpty || !allDigits t then .error .valueError
    else .ok ((natOfDigits t : Int))

/-- Python list indexing `l[i]` for a nonnegative index: `IndexError` when
out of range. -/
def pyIdx {α : Type} (l : List α) (i : Nat) : Except PyErr α :=
  match l.get? i with
  | some a => .ok a
  | none => .error .indexError

/-! ### Dictionaries as insertion-ordered association lists -/

/-- A Python dict: an insertion-ordered association list. -/
abbrev Dict (K V : Type) := List (K × V)

/-- Lookup of the first entry with the given key. -/
def dFind? {K V : Type} [DecidableEq K] : Dict K V → K → Option V
  | [], _ => none
  | (k', v) :: t, k => if k' = k then some v else dFind? t k

/-- Lookup with a default value (`defaultdict` read). -/
def dGetD {K V : Type} [DecidableEq K] (d : Dict K V) (k : K) (dflt : V) : V :=
  (dFind? d k).getD dflt

/-- Python dict assignment `d[k] = v`: replace the first entry with key `k`
in place, else append. -/
def dSet {K V : Type} [DecidableEq K] : Dict K V → K → V → Dict K V
  | [], k, v => [(k, v)]
  | (k', v') :: t, k, v =>
    if k' = k then (k, v) :: t else (k', v') :: dSet t k v

/-- Keys of a dict, in order. -/
def dKeys {K V : Type} (d : Dict K V) : List K := d.map Prod.fst

/-! ### Data model of `parse_replay_log` -/

/-- One entry of `active_pokemon`: the side's currently active combatant
and its last tracked health. -/
structure Active where
  nickname : String
  hp : Int
deriving DecidableEq, Repr

/-- One value of the inner `pokemon_stats` defaultdict. -/
structure PokeStats where
  species : Option String := none
  moves : Dict String Nat := []
  damage_dealt : Int := 0
  damage_received : Int := 0
  status_dealt : Nat := 0
  status_received : Nat := 0
  n_ko_dealt : Nat := 0
  n_ko_received : Nat := 0
  turns_on_field : Nat := 0
deriving DecidableEq, Repr

/-- The default value the inner `pokemon_stats` defaultdict creates. -/
def defaultPoke : PokeStats := {}

/-- One value of the `player_stats` defaultdict. -/
structure PlayerStats where
  name : Option String := none
  elo : Option Int := none
  team_order : List String := []
  team_size : Option Int := none
  spikes : Option Int := none
deriving DecidableEq, Repr

/-- The default value the `player_stats` defaultdict creates. -/
def defaultPlayer : PlayerStats := {}

/-- The mutable state of the interpreter loop.  `new_hp` is the Python
local of that name, which leaks across loop iterations: reading it before
any assignment is a `NameError`. -/
structure ParseState where
  player_stats : Dict String PlayerStats := []
  pokemon_stats : Dict String (Dict String PokeStats) := []
  active_pokemon : Dict String Active := []
  n_turns : Nat := 0
  winner : Option String := none
  new_hp : Option Int := none
deriving DecidableEq, Repr

/-- The state before the first line. -/
def initState : ParseState := {}

/-- Python truthiness test `not x` for the `name` slot (`None` and the
empty string are falsy). -/
def pyFalsyStr : Option String → Bool
  | none => true
  | some s => s.data.isEmpty

/-- Python truthiness test `not x` for the `elo` slot (`None` and `0` are
falsy). -/
def pyFalsyInt : Option Int → Bool
  | none => true
  | some n => n = 0

/-- Read-modify-write of one `pokemon_stats[pid][nick]` cell, vivifying
both defaultdict levels like the source's accesses do. -/
def pstatsModify (ps : Dict String (Dict String PokeStats)) (pid nick : String)
    (f : PokeStats → PokeStats) : Dict String (Dict String PokeStats) :=
  let inner := dGetD ps pid []
  dSet ps pid (dSet inner nick (f (dGetD inner nick defaultPoke)))

/-- The source's attacker resolution: `'p1' if player_id == 'p2' else 'p2'`. -/
def oppSide (pid : String) : String := if pid = "p2" then "p1" else "p2"

/-! Named cell updates, one per `+=`/assignment the source performs on a
`pokemon_stats` cell. -/

/-- Assignment `['species'] = sp`. -/
def setSpecies (sp : String) (p : PokeStats) : PokeStats := { p with species := some sp }

/-- Increment `['moves'][mv] += 1`. -/
def addMove (mv : String) (p : PokeStats) : PokeStats :=
  { p with moves := dSet p.moves mv (dGetD p.moves mv 0 + 1) }

/-- Increment `['damage_dealt'] += delta` (no clamping in the source). -/
def addDealt (delta : Int) (p : PokeStats) : PokeStats :=
  { p with damage_dealt := p.damage_dealt + delta }

/-- Increment `['damage_received'] += delta` (no clamping in the source). -/
def addRecv (delta : Int) (p : PokeStats) : PokeStats :=
  { p with damage_received := p.damage_received + delta }

/-- Increment `['status_dealt'] += 1`. -/
def addSD (p : PokeStats) : PokeStats := { p with status_dealt := p.status_dealt + 1 }

/-- Increment `['status_received'] += 1`. -/
def addSR (p : PokeStats) : PokeStats := { p with status_received := p.status_received + 1 }

/-- Increment `['n_ko_dealt'] += 1`. -/
def addKoDealt (p : PokeStats) : PokeStats := { p with n_ko_dealt := p.n_ko_dealt + 1 }

/-- Increment `['n_ko_received'] += 1`. -/
def addKoRecv (p : PokeStats) : PokeStats := { p with n_ko_received := p.n_ko_received + 1 }

/-- Increment `['turns_on_field'] += 1`. -/
def tickCell (p : PokeStats) : PokeStats := { p with turns_on_field := p.turns_on_field + 1 }

/-- Transcription of `parse_log_header`: split on `':'`, take the last
whitespace-separated token of the part before the first colon (IndexError
when there is none), keep its first two characters; the nickname is the
colon-rejoined remainder, stripped. -/
def parse_log_header (header : String) : Except PyErr (String × String) :=
  let player_data := pySplit ':' header
  match (pySplitWs (player_data.headD "")).getLast? with
  | none => .error .indexError
  | some token =>
    .ok (pyTake 2 token, pyStrip (pyJoin ':' (player_data.drop 1)))

/-! ### The event-tag branches of the interpreter loop -/

/-- Plain-dict read `d[k]`: `KeyError` when the key is absent (this is how
the source reads `active_pokemon`, which is a plain dict, not a
defaultdict). -/
def pyDictGet {K V : Type} [DecidableEq K] (d : Dict K V) (k : K) : Except PyErr V :=
  match dFind? d k with
  | some v => .ok v
  | none => .error .keyError

/-- Reading a Python local that may not have been assigned yet
(`new_hp`): `NameError` when unassigned. -/
def pyLocal (x : Option Int) : Except PyErr Int :=
  match x with
  | some n => .ok n
  | none => .error .nameError

/-- The `player` branch: record name (if still falsy) and elo (if still
falsy; `int` failure is caught by the source's `try`/`except ValueError`). -/
def playerBranch (s : ParseState) (parts : List String) : Except PyErr ParseState := do
  let player_id ← pyIdx parts 2
  let ps0 := dGetD s.player_stats player_id defaultPlayer
  let ps1 ← (if pyFalsyStr ps0.name then do
      let nm ← pyIdx parts 3
      pure { ps0 with name := some nm }
    else pure ps0)
  if pyFalsyInt ps1.elo then do
    let raw ← pyIdx parts 5
    match pyInt raw with
    | .error _ => pure { s with player_stats := dSet s.player_stats player_id ps1 }
    | .ok v =>
      let newPs := dSet s.player_stats player_id { ps1 with elo := some v }
      pure { s with player_stats := newPs }
  else pure { s with player_stats := dSet s.player_stats player_id ps1 }

/-- The `teamsize` branch: `int(parts[3])` is not guarded, so an
unparseable count raises. -/
def teamsizeBranch (s : ParseState) (parts : List String) : Except PyErr ParseState := do
  let player_id ← pyIdx parts 2
  let raw ← pyIdx parts 3
  let n ← pyInt raw
  let ps := dGetD s.player_stats player_id defaultPlayer
  let newPs := dSet s.player_stats player_id { ps with team_size := some n }
  pure { s with player_stats := newPs }

/-- The `switch`/`drag` branch: unconditionally (re)bind the nickname's
species, append the species to `team_order` when new for the side, and
overwrite the side's active combatant. -/
def switchBranch (s : ParseState) (parts : List String) : Except PyErr ParseState := do
  let hdr ← pyIdx parts 2
  let (player_id, nickname) ← parse_log_header hdr
  let f3 ← pyIdx parts 3
  let species := (pySplit ',' f3).headD ""
  let f4 ← pyIdx parts 4
  let hp ← pyInt ((pySplit '/' f4).headD "")
  let pk := pstatsModify s.pokemon_stats player_id nickname (setSpecies species)
  let s1 := { s with pokemon_stats := pk }
  let ps := dGetD s1.player_stats player_id defaultPlayer
  let ps' := if species ∈ ps.team_order then ps
             else { ps with team_order := ps.team_order ++ [species] }
  let s2 := { s1 with player_stats := dSet s1.player_stats player_id ps' }
  pure { s2 with active_pokemon := dSet s2.active_pokemon player_id ⟨nickname, hp⟩ }

/-- The loop `for player_id in active_pokemon:` incrementing
`turns_on_field` of each side's active nickname. -/
def tickFold (ps : Dict String (Dict String PokeStats)) (acts : Dict String Active) :
    Dict String (Dict String PokeStats) :=
  acts.foldl (fun st kv => pstatsModify st kv.1 kv.2.nickname tickCell) ps

/-- State change shared by the `turn` and `win` branches. -/
def tickActives (s : ParseState) : ParseState :=
  { s with pokemon_stats := tickFold s.pokemon_stats s.active_pokemon }

/-- The `win` branch: record the winner and run one extra tick; note the
source does not stop the loop at a win event. -/
def winBranch (s : ParseState) (parts : List String) : Except PyErr ParseState := do
  let w ← pyIdx parts 2
  pure (tickActives { s with winner := some w })

/-- The `move` branch: count the move for the named combatant. -/
def moveBranch (s : ParseState) (parts : List String) : Except PyErr ParseState := do
  let hdr ← pyIdx parts 2
  let (player_id, nickname) ← parse_log_header hdr
  let mv ← pyIdx parts 3
  let pk := pstatsModify s.pokemon_stats player_id nickname (addMove mv)
  pure { s with pokemon_stats := pk }

/-- The `-status` branch: only the exactly-4-part shape is attributed; the
attacker is the opposing side's active combatant (a plain-dict lookup that
raises `KeyError` when that side has none). -/
def statusBranch (s : ParseState) (parts : List String) : Except PyErr ParseState :=
  if parts.length = 4 then do
    let hdr ← pyIdx parts 2
    let (player_id, nickname) ← parse_log_header hdr
    let attacker_id := oppSide player_id
    let att ← pyDictGet s.active_pokemon attacker_id
    let _status ← pyIdx parts 3
    let pk1 := pstatsModify s.pokemon_stats attacker_id att.nickname addSD
    let s1 := { s with pokemon_stats := pk1 }
    let pk2 := pstatsModify s1.pokemon_stats player_id nickname addSR
    pure { s1 with pokemon_stats := pk2 }
  else pure s

/-- The `-damage` branch.  Attacker and victim lookups are plain-dict
accesses (`KeyError` when absent).  In the 4-part shape, a payload
containing `fnt` credits a KO to the attacker and parses the new health
from `split()[0]`; a payload containing `/` parses it from the slash; the
(possibly stale, possibly unassigned) local `new_hp` then feeds the
symmetric unclamped damage increments.  A 5-part payload only re-parses
the health.  Finally the victim side's active entry is overwritten. -/
def damageBranch (s : ParseState) (parts : List String) : Except PyErr ParseState := do
  let hdr ← pyIdx parts 2
  let (player_id, nickname) ← parse_log_header hdr
  let attacker_id := oppSide player_id
  let att ← pyDictGet s.active_pokemon attacker_id
  let victim ← pyDictGet s.active_pokemon player_id
  let old_hp := victim.hp
  let s4 ← (if parts.length = 4 then do
      let f3 ← pyIdx parts 3
      let sa ← (if pyIn "fnt" f3 then do
          let pkKo := pstatsModify s.pokemon_stats attacker_id att.nickname addKoDealt
          let sk := { s with pokemon_stats := pkKo }
          let w ← pyIdx (pySplitWs f3) 0
          let nh ← pyInt w
          pure { sk with new_hp := some nh }
        else pure s)
      let sb ← (if pyIn "/" f3 then do
          let nh ← pyInt ((pySplit '/' f3).headD "")
          pure { sa with new_hp := some nh }
        else pure sa)
      let nh ← pyLocal sb.new_hp
      let pkD := pstatsModify sb.pokemon_stats attacker_id att.nickname (addDealt (old_hp - nh))
      let sc := { sb with pokemon_stats := pkD }
      let pkR := pstatsModify sc.pokemon_stats player_id nickname (addRecv (old_hp - nh))
      pure { sc with pokemon_stats := pkR }
    else pure s)
  let s5 ← (if parts.length = 5 then do
      let f3 ← pyIdx parts 3
      let nh ← pyInt ((pySplit '/' f3).headD "")
      pure { s4 with new_hp := some nh }
    else pure s4)
  let nh ← pyLocal s5.new_hp
  pure { s5 with active_pokemon := dSet s5.active_pokemon player_id ⟨nickname, nh⟩ }

/-- The `-heal` branch: update tracked health only (also assigns the
loop-carried `new_hp` local). -/
def healBranch (s : ParseState) (parts : List String) : Except PyErr ParseState := do
  let hdr ← pyIdx parts 2
  let (player_id, nickname) ← parse_log_header hdr
  let f3 ← pyIdx parts 3
  let nh ← pyInt ((pySplit '/' f3).headD "")
  pure { s with new_hp := some nh,
                active_pokemon := dSet s.active_pokemon player_id ⟨nickname, nh⟩ }

/-- The `faint` branch: increment `n_ko_received` only. -/
def faintBranch (s : ParseState) (parts : List String) : Except PyErr ParseState := do
  let hdr ← pyIdx parts 2
  let (player_id, nickname) ← parse_log_header hdr
  let pk := pstatsModify s.pokemon_stats player_id nickname addKoRecv
  pure { s with pokemon_stats := pk }

/-- The `-sidestart` branch: the source only locates the would-be attacker
(a plain-dict lookup that can raise) and discards it. -/
def sidestartBranch (s : ParseState) (parts : List String) : Except PyErr ParseState := do
  let hdr ← pyIdx parts 2
  let (player_id, _nickname) ← parse_log_header hdr
  let _att ← pyDictGet s.active_pokemon (oppSide player_id)
  pure s

/-- The `-sideend` branch: parses `parts[5]` as a header and discards it. -/
def sideendBranch (s : ParseState) (parts : List String) : Except PyErr ParseState := do
  let hdr ← pyIdx parts 5
  let _hdr2 ← parse_log_header hdr
  pure s

/-- The tag of a split line: `parts[1]` (only consulted when the line has
more than one part). -/
def tagOf (parts : List String) : String := parts.getD 1 ""

/-- The dispatcher body of the loop, acting on an already-split line.
Lines with a single part are skipped; `weather` and unrecognized tags fall
through with no effect. -/
def dispatch (s : ParseState) (parts : List String) : Except PyErr ParseState :=
  if parts.length = 1 then .ok s
  else
    let tag := tagOf parts
    if tag = "player" then playerBranch s parts
    else if tag = "teamsize" then teamsizeBranch s parts
    else if tag = "switch" ∨ tag = "drag" then switchBranch s parts
    else if tag = "turn" then .ok (tickActives { s with n_turns := s.n_turns + 1 })
    else if tag = "win" then winBranch s parts
    else if tag = "move" then moveBranch s parts
    else if tag = "-status" then statusBranch s parts
    else if tag = "-damage" then damageBranch s parts
    else if tag = "-heal" then healBranch s parts
    else if tag = "faint" then faintBranch s parts
    else if tag = "-sidestart" then sidestartBranch s parts
    else if tag = "-sideend" then sideendBranch s parts
    else .ok s

/-- Process one raw line: strip it, split on the pipe, dispatch. -/
def processLine (s : ParseState) (line : String) : Except PyErr ParseState :=
  dispatch s (pySplit '|' (pyStrip line))

/-- Fold the interpreter over a list of lines; an uncaught exception
aborts the rest of the fold. -/
def processLines : ParseState → List String → Except PyErr ParseState
  | s, [] => .ok s
  | s, l :: ls =>
    match processLine s l with
    | .error e => .error e
    | .ok s' => processLines s' ls

/-- The lines of a log blob, as the source produces them. -/
def logLines (log : String) : List String := pySplit '\n' log

/-- The whole interpreter loop of `parse_replay_log` on a log blob. -/
def processLog (log : String) : Except PyErr ParseState :=
  processLines initState (logLines log)

/-! ### Observations on the final state -/

/-- The `pokemon_stats[pid][nick]` cell, reading defaults like the source's
defaultdicts. -/
def pval (ps : Dict String (Dict String PokeStats)) (pid nick : String) : PokeStats :=
  dGetD (dGetD ps pid []) nick defaultPoke

/-- The `pokemon_stats` cell of a state. -/
def pokeVal (s : ParseState) (pid nick : String) : PokeStats :=
  pval s.pokemon_stats pid nick

/-- The team order recorded for a side. -/
def teamOrderOf (s : ParseState) (pid : String) : List String :=
  (dGetD s.player_stats pid defaultPlayer).team_order

/-- Entry sum of a value projection over a dict. -/
def entSum {V M : Type} [AddCommMonoid M] (d : Dict String V) (g : V → M) : M :=
  (d.map (fun kv => g kv.2)).sum

/-- Sum of a projection over one side's recorded combatants. -/
def sideSum {M : Type} [AddCommMonoid M]
    (ps : Dict String (Dict String PokeStats)) (q : String) (g : PokeStats → M) : M :=
  entSum (dGetD ps q []) g

/-- Total damage dealt recorded for a side. -/
def sideDealt (s : ParseState) (q : String) : Int :=
  sideSum s.pokemon_stats q (fun p => p.damage_dealt)

/-- Total damage received recorded for a side. -/
def sideRecv (s : ParseState) (q : String) : Int :=
  sideSum s.pokemon_stats q (fun p => p.damage_received)

/-- Total turns-on-field recorded for a side. -/
def sideTurns (s : ParseState) (q : String) : Nat :=
  sideSum s.pokemon_stats q (fun p => p.turns_on_field)

/-- Append a species when unseen (the source's `team_order` update). -/
def pushNew (acc : List String) (sp : String) : List String :=
  if sp ∈ acc then acc else acc ++ [sp]

/-- The side and species a split line would register, when it is a
`switch`/`drag` line all of whose parses succeed. -/
def switchData? (parts : List String) : Option (String × String) :=
  if tagOf parts = "switch" ∨ tagOf parts = "drag" then
    match pyIdx parts 2 with
    | .error _ => none
    | .ok hdr =>
      match parse_log_header hdr with
      | .error _ => none
      | .ok (pid, _) =>
        match pyIdx parts 3 with
        | .error _ => none
        | .ok f3 =>
          match pyIdx parts 4 with
          | .error _ => none
          | .ok f4 =>
            match pyInt ((pySplit '/' f4).headD "") with
            | .error _ => none
            | .ok _ => some (pid, (pySplit ',' f3).headD "")
  else none

/-- The victim side named by a `-damage` line's header, when it parses. -/
def damageVictim? (parts : List String) : Option String :=
  if tagOf parts = "-damage" then
    match pyIdx parts 2 with
    | .error _ => none
    | .ok hdr =>
      match parse_log_header hdr with
      | .error _ => none
      | .ok (pid, _) => some pid
  else none

/-- Whether a split line triggers the turns-on-field tick (a `turn` or
`win` line). -/
def isTick (parts : List String) : Bool :=
  tagOf parts = "turn" || tagOf parts = "win"


/-- The turns-on-field counter of one cell. -/
def turnsAt (s : ParseState) (q m : String) : Nat := (pokeVal s q m).turns_on_field

/-- Modelled from the spec: the source's row assembly reads `p1_lead` and
`p2_lead`, which `parse_replay_log` never assigns (the Match Resolver is
missing from the code); the spec defines `lead(side)` as the first species
appended to the side's team order. -/
def leadOf (s : ParseState) (pid : String) : Option String := (teamOrderOf s pid).head?

/-- First-appearance dedup of a species sequence. -/
def firstAppear (l : List String) : List String := l.foldl pushNew []

/-- The side and species a raw line registers, when it is a well-formed
entry line. -/
def lineSwitchData (line : String) : Option (String × String) :=
  switchData? (pySplit '|' (pyStrip line))

/-- The species sequence side `q` registers over a list of raw lines. -/
def switchSpeciesSeq (lines : List String) (q : String) : List String :=
  lines.filterMap (fun line =>
    match lineSwitchData line with
    | some psp => if psp.1 = q then some psp.2 else none
    | none => none)

/-- Whether a raw line is a `turn` or `win` line. -/
def lineIsTick (line : String) : Bool := isTick (pySplit '|' (pyStrip line))

/-- Number of tick lines (`turn` or `win`) in a list of raw lines. -/
def tickLineCount (lines : List String) : Nat :=
  (lines.filter (fun l => lineIsTick l)).length

/-- Number of `turn` lines. -/
def turnLineCount (lines : List String) : Nat :=
  (lines.filter (fun l => tagOf (pySplit '|' (pyStrip l)) == "turn")).length

/-- Number of `win` lines. -/
def winLineCount (lines : List String) : Nat :=
  (lines.filter (fun l => tagOf (pySplit '|' (pyStrip l)) == "win")).length

/-- The victim side a raw `-damage` line names, when its header parses. -/
def damageVictimOfLine (line : String) : Option String :=
  damageVictim? (pySplit '|' (pyStrip line))

/-- Whether a raw line, if it is a `-damage` line, names one of the two
real sides as victim. -/
def damageSidesOK (line : String) : Bool :=
  match damageVictimOfLine line with
  | some pid => pid == "p1" || pid == "p2"
  | none => true

/-- Spec-side rendering for claim C10: the part of a header strictly before
its first colon (the whole header when there is no colon). -/
def beforeColon (s : String) : String :=
  String.mk (s.data.takeWhile (fun c => c != ':'))

/-- Spec-side rendering for claim C10: the remainder of a header strictly
after its first colon (empty when there is no colon). -/
def afterColon (s : String) : String :=
  String.mk ((s.data.dropWhile (fun c => c != ':')).drop 1)

/-- The final state of a successful run, `initState` on an aborted run. -/
def runState (log : String) : ParseState :=
  match processLog log with
  | .ok s => s
  | .error _ => initState

/-- Two `pokemon_stats` tables agreeing on every turns-on-field counter and
on every side's damage sums. -/
def statsQuiet (a b : Dict String (Dict String PokeStats)) : Prop :=
  (∀ q m, (pval a q m).turns_on_field = (pval b q m).turns_on_field) ∧
  (∀ q, sideSum a q (fun p => p.turns_on_field) = sideSum b q (fun p => p.turns_on_field)) ∧
  (∀ q, sideSum a q (fun p => p.damage_dealt) = sideSum b q (fun p => p.damage_dealt)) ∧
  (∀ q, sideSum a q (fun p => p.damage_received) = sideSum b q (fun p => p.damage_received))


/-! ### Dictionary lemmas -/

@[simp] theorem dKeys_nil {K V : Type} : dKeys ([] : Dict K V) = [] := rfl

@[simp] theorem dKeys_cons {K V : Type} (a : K) (b : V) (t : Dict K V) :
    dKeys ((a, b) :: t) = a :: dKeys t := rfl

@[simp] theorem entSum_nil {V M : Type} [AddCommMonoid M] (g : V → M) :
    entSum ([] : Dict String V) g = 0 := rfl

@[simp] theorem entSum_cons {V M : Type} [AddCommMonoid M]
    (a : String) (b : V) (t : Dict String V) (g : V → M) :
    entSum ((a, b) :: t) g = g b + entSum t g := by
  simp [entSum]

theorem dFind?_dSet {K V : Type} [DecidableEq K] (d : Dict K V) (k k' : K) (v : V) :
    dFind? (dSet d k v) k' = if k' = k then some v else dFind? d k' := by
  induction d with
  | nil =>
    simp only [dSet, dFind?]
    split_ifs <;> first
      | rfl
      | exact absurd (Eq.symm ‹k = k'›) ‹¬k' = k›
      | exact absurd (Eq.symm ‹k' = k›) ‹¬k = k'›
  | cons hd t ih =>
    obtain ⟨k₀, v₀⟩ := hd
    by_cases h0 : k₀ = k
    · subst h0
      simp only [dSet, if_pos rfl, dFind?]
      split_ifs <;> first
        | rfl
        | exact absurd (Eq.symm ‹k₀ = k'›) ‹¬k' = k₀›
        | exact absurd (Eq.symm ‹k' = k₀›) ‹¬k₀ = k'›
    · simp only [dSet, if_neg h0, dFind?, ih]
      split_ifs <;> first
        | rfl
        | exact absurd (Eq.trans ‹k₀ = k'› ‹k' = k›) h0

theorem dGetD_dSet {K V : Type} [DecidableEq K] (d : Dict K V) (k k' : K) (v dflt : V) :
    dGetD (dSet d k v) k' dflt = if k' = k then v else dGetD d k' dflt := by
  by_cases h : k' = k <;> simp [dGetD, dFind?_dSet, h]

theorem dKeys_dSet_mem {K V : Type} [DecidableEq K] {d : Dict K V} {k : K} (v : V)
    (h : k ∈ dKeys d) : dKeys (dSet d k v) = dKeys d := by
  induction d with
  | nil => simp at h
  | cons hd t ih =>
    obtain ⟨k₀, v₀⟩ := hd
    by_cases h0 : k₀ = k
    · subst h0; simp [dSet]
    · have hmem : k ∈ dKeys t := by
        rcases List.mem_cons.mp (by simpa using h) with h1 | h1
        · exact absurd h1.symm h0
        · exact h1
      simp only [dSet, if_neg h0, dKeys_cons, ih hmem]

theorem dKeys_dSet_notMem {K V : Type} [DecidableEq K] {d : Dict K V} {k : K} (v : V)
    (h : k ∉ dKeys d) : dKeys (dSet d k v) = dKeys d ++ [k] := by
  induction d with
  | nil => simp [dSet]
  | cons hd t ih =>
    obtain ⟨k₀, v₀⟩ := hd
    have h1 : ¬k₀ = k := fun hh => h (by simp [hh])
    have h2 : k ∉ dKeys t := fun hh => h (by simp [hh])
    simp only [dSet, if_neg h1, dKeys_cons, ih h2, List.cons_append]

theorem keysNodup_dSet {K V : Type} [DecidableEq K] {d : Dict K V} {k : K} (v : V)
    (h : (dKeys d).Nodup) : (dKeys (dSet d k v)).Nodup := by
  by_cases hk : k ∈ dKeys d
  · rw [dKeys_dSet_mem v hk]; exact h
  · rw [dKeys_dSet_notMem v hk]
    simpa [List.nodup_append] using ⟨h, hk⟩

theorem dFind?_eq_none_of_notMem {K V : Type} [DecidableEq K] {d : Dict K V} {k : K}
    (h : k ∉ dKeys d) : dFind? d k = none := by
  induction d with
  | nil => rfl
  | cons hd t ih =>
    obtain ⟨k₀, v₀⟩ := hd
    have h1 : ¬k₀ = k := fun hh => h (by simp [hh])
    have h2 : k ∉ dKeys t := fun hh => h (by simp [hh])
    simp only [dFind?, if_neg h1, ih h2]

theorem entSum_dSet_of_notMem {V M : Type} [AddCommMonoid M]
    {d : Dict String V} {k : String} (v : V) (g : V → M)
    (h : dFind? d k = none) : entSum (dSet d k v) g = entSum d g + g v := by
  induction d with
  | nil => simp [dSet]
  | cons hd t ih =>
    obtain ⟨k₀, v₀⟩ := hd
    by_cases hk : k₀ = k
    · simp [dFind?, hk] at h
    · simp only [dFind?, if_neg hk] at h
      simp only [dSet, if_neg hk, entSum_cons, ih h, add_assoc]

theorem entSum_dSet_of_mem {V M : Type} [AddCommMonoid M]
    {d : Dict String V} {k : String} {w : V} (v : V) (g : V → M)
    (h : dFind? d k = some w) :
    entSum (dSet d k v) g + g w = entSum d g + g v := by
  induction d with
  | nil => simp [dFind?] at h
  | cons hd t ih =>
    obtain ⟨k₀, v₀⟩ := hd
    by_cases hk : k₀ = k
    · subst hk
      have hw : w = v₀ := by
        have h2 : some v₀ = some w := by simpa [dFind?] using h
        exact (Option.some.inj h2).symm
      have hset : dSet ((k₀, v₀) :: t) k₀ v = (k₀, v) :: t := by simp [dSet]
      rw [hset, entSum_cons, entSum_cons, hw]
      abel
    · simp only [dFind?, if_neg hk] at h
      simp only [dSet, if_neg hk, entSum_cons]
      rw [add_assoc, ih h, ← add_assoc]

/-! ### Projection lemmas for `pstatsModify` and the tick fold -/

theorem pval_pstatsModify (ps : Dict String (Dict String PokeStats))
    (pid nick : String) (f : PokeStats → PokeStats) (q m : String) :
    pval (pstatsModify ps pid nick f) q m =
      if q = pid ∧ m = nick then f (pval ps pid nick) else pval ps q m := by
  unfold pval pstatsModify
  by_cases hq : q = pid
  · subst hq
    rw [dGetD_dSet]
    simp only [if_pos rfl]
    by_cases hm : m = nick
    · subst hm; simp [dGetD_dSet]
    · simp [dGetD_dSet, hm]
  · simp [dGetD_dSet, hq]

theorem sideSum_pstatsModify {M : Type} [AddCancelCommMonoid M]
    (ps : Dict String (Dict String PokeStats)) (pid nick : String)
    (f : PokeStats → PokeStats) (g : PokeStats → M) (c : M)
    (hf : ∀ x, g (f x) = g x + c) (h0 : g defaultPoke = 0) (q : String) :
    sideSum (pstatsModify ps pid nick f) q g
      = sideSum ps q g + (if q = pid then c else 0) := by
  unfold sideSum pstatsModify
  rw [dGetD_dSet]
  by_cases hq : q = pid
  · rw [if_pos hq, if_pos hq]
    subst hq
    rcases hfind : dFind? (dGetD ps q []) nick with _ | w
    · have hd : dGetD (dGetD ps q []) nick defaultPoke = defaultPoke := by
        rw [dGetD, hfind]; rfl
      rw [hd, entSum_dSet_of_notMem _ g hfind, hf, h0, zero_add]
    · have hd : dGetD (dGetD ps q []) nick defaultPoke = w := by
        rw [dGetD, hfind]; rfl
      rw [hd]
      have h2 : entSum (dSet (dGetD ps q []) nick (f w)) g + g w
          = (entSum (dGetD ps q []) g + c) + g w := by
        rw [entSum_dSet_of_mem _ g hfind, hf]; abel
      exact add_right_cancel h2
  · rw [if_neg hq, if_neg hq, add_zero]

theorem pval_pstatsModify_proj {α : Type} (ps : Dict String (Dict String PokeStats))
    (pid nick : String) (f : PokeStats → PokeStats) (h : PokeStats → α)
    (hpres : ∀ x, h (f x) = h x) (q m : String) :
    h (pval (pstatsModify ps pid nick f) q m) = h (pval ps q m) := by
  rw [pval_pstatsModify]
  by_cases hqm : q = pid ∧ m = nick
  · rw [if_pos hqm, hpres, hqm.1, hqm.2]
  · rw [if_neg hqm]

/-! ### Tick fold lemmas -/

theorem turns_tickCell (p : PokeStats) :
    (tickCell p).turns_on_field = p.turns_on_field + 1 := rfl

theorem tickFold_nil (ps : Dict String (Dict String PokeStats)) :
    tickFold ps [] = ps := rfl

theorem tickFold_cons (ps : Dict String (Dict String PokeStats))
    (k : String) (a : Active) (acts : Dict String Active) :
    tickFold ps ((k, a) :: acts) = tickFold (pstatsModify ps k a.nickname tickCell) acts := rfl

theorem tickFold_pval_proj {α : Type} (ps : Dict String (Dict String PokeStats))
    (acts : Dict String Active) (h : PokeStats → α)
    (hpres : ∀ x, h (tickCell x) = h x) (q m : String) :
    h (pval (tickFold ps acts) q m) = h (pval ps q m) := by
  induction acts generalizing ps with
  | nil => rfl
  | cons hd t ih =>
    obtain ⟨k, a⟩ := hd
    rw [tickFold_cons, ih, pval_pstatsModify_proj _ _ _ _ _ hpres]

theorem tickFold_turns_ge (ps : Dict String (Dict String PokeStats))
    (acts : Dict String Active) (q m : String) :
    (pval ps q m).turns_on_field ≤ (pval (tickFold ps acts) q m).turns_on_field := by
  induction acts generalizing ps with
  | nil => exact le_refl _
  | cons hd t ih =>
    obtain ⟨k, a⟩ := hd
    rw [tickFold_cons]
    refine le_trans ?_ (ih _)
    rw [pval_pstatsModify]
    by_cases hqm : q = k ∧ m = a.nickname
    · rw [if_pos hqm, turns_tickCell, hqm.1, hqm.2]
      exact Nat.le_succ _
    · rw [if_neg hqm]

theorem tickFold_pval_of_not_key (ps : Dict String (Dict String PokeStats))
    (acts : Dict String Active) (q m : String) (h : q ∉ dKeys acts) :
    pval (tickFold ps acts) q m = pval ps q m := by
  induction acts generalizing ps with
  | nil => rfl
  | cons hd t ih =>
    obtain ⟨k, a⟩ := hd
    have h1 : ¬q = k := fun hh => h (by simp [hh])
    have h2 : q ∉ dKeys t := fun hh => h (by simp [hh])
    rw [tickFold_cons, ih _ h2, pval_pstatsModify, if_neg (fun hc => h1 hc.1)]

theorem tickFold_turns_active (ps : Dict String (Dict String PokeStats))
    (acts : Dict String Active) (q : String) (a : Active)
    (hnd : (dKeys acts).Nodup) (hfind : dFind? acts q = some a) :
    (pval (tickFold ps acts) q a.nickname).turns_on_field
      = (pval ps q a.nickname).turns_on_field + 1 := by
  induction acts generalizing ps with
  | nil => simp [dFind?] at hfind
  | cons hd t ih =>
    obtain ⟨k, b⟩ := hd
    by_cases hk : k = q
    · subst hk
      have hb : b = a := by
        have h2 : some b = some a := by simpa [dFind?] using hfind
        exact Option.some.inj h2
      subst hb
      have hnot : k ∉ dKeys t := by
        simp only [dKeys_cons] at hnd
        exact (List.nodup_cons.mp hnd).1
      rw [tickFold_cons, tickFold_pval_of_not_key _ _ _ _ hnot,
        pval_pstatsModify, if_pos ⟨rfl, rfl⟩, turns_tickCell]
    · have hfind' : dFind? t q = some a := by
        simpa [dFind?, hk] using hfind
      have hnd' : (dKeys t).Nodup := by
        simp only [dKeys_cons] at hnd
        exact (List.nodup_cons.mp hnd).2
      rw [tickFold_cons, ih _ hnd' hfind', pval_pstatsModify,
        if_neg (fun hc => hk hc.1.symm)]

theorem tickFold_sideTurns (ps : Dict String (Dict String PokeStats))
    (acts : Dict String Active) (q : String) (hnd : (dKeys acts).Nodup) :
    sideSum (tickFold ps acts) q (fun p => p.turns_on_field)
      = sideSum ps q (fun p => p.turns_on_field) + (if q ∈ dKeys acts then 1 else 0) := by
  induction acts generalizing ps with
  | nil => simp [tickFold_nil]
  | cons hd t ih =>
    obtain ⟨k, b⟩ := hd
    have hnd' : (dKeys t).Nodup := by
      simp only [dKeys_cons] at hnd
      exact (List.nodup_cons.mp hnd).2
    rw [tickFold_cons, ih _ hnd',
      sideSum_pstatsModify _ _ _ _ _ 1 (fun x => turns_tickCell x) rfl]
    by_cases hk : q = k
    · subst hk
      have hnot : q ∉ dKeys t := by
        simp only [dKeys_cons] at hnd
        exact (List.nodup_cons.mp hnd).1
      simp [hnot]
    · simp only [dKeys_cons, List.mem_cons]
      simp [hk]

theorem tickFold_sideSum_proj {M : Type} [AddCancelCommMonoid M]
    (ps : Dict String (Dict String PokeStats)) (acts : Dict String Active)
    (g : PokeStats → M) (hg : ∀ x, g (tickCell x) = g x) (h0 : g defaultPoke = 0)
    (q : String) :
    sideSum (tickFold ps acts) q g = sideSum ps q g := by
  induction acts generalizing ps with
  | nil => rfl
  | cons hd t ih =>
    obtain ⟨k, b⟩ := hd
    rw [tickFold_cons, ih,
      sideSum_pstatsModify _ _ _ _ _ 0 (fun x => by rw [hg, add_zero]) h0]
    simp

/-! ### Shape lemmas for the branches -/

theorem exBind_ok {α β : Type} {x : Except PyErr α} {f : α → Except PyErr β} {b : β}
    (h : x >>= f = .ok b) : ∃ a, x = .ok a ∧ f a = .ok b := by
  cases x with
  | error e => exact absurd h (fun hh => Except.noConfusion hh)
  | ok a => exact ⟨a, rfl, h⟩

theorem exPure_ok {β : Type} {a b : β} (h : (pure a : Except PyErr β) = .ok b) : a = b :=
  Except.ok.inj h

theorem teamOrder_dSet_preserved {s : ParseState} {pid : String} {X : PlayerStats}
    (hto : X.team_order = (dGetD s.player_stats pid defaultPlayer).team_order)
    (ps2 : Dict String (Dict String PokeStats)) (ap : Dict String Active)
    (nt : Nat) (wi : Option String) (nh : Option Int) (q : String) :
    teamOrderOf ⟨dSet s.player_stats pid X, ps2, ap, nt, wi, nh⟩ q = teamOrderOf s q := by
  unfold teamOrderOf
  dsimp only
  rw [dGetD_dSet]
  by_cases hq : q = pid
  · subst hq; rw [if_pos rfl, hto]
  · rw [if_neg hq]

theorem playerBranch_ok {s s' : ParseState} {parts : List String}
    (h : playerBranch s parts = .ok s') :
    s'.pokemon_stats = s.pokemon_stats ∧ s'.active_pokemon = s.active_pokemon ∧
    ∀ q, teamOrderOf s' q = teamOrderOf s q := by
  unfold playerBranch at h
  obtain ⟨pid, hpid, h⟩ := exBind_ok h
  try dsimp only at h
  obtain ⟨ps1, hps1, h⟩ := exBind_ok h
  have hto : ps1.team_order = (dGetD s.player_stats pid defaultPlayer).team_order := by
    by_cases hc : pyFalsyStr (dGetD s.player_stats pid defaultPlayer).name
    · rw [if_pos hc] at hps1
      obtain ⟨nm, hnm, hps1⟩ := exBind_ok hps1
      rw [← exPure_ok hps1]
    · rw [if_neg hc] at hps1
      rw [← exPure_ok hps1]
  by_cases hc2 : pyFalsyInt ps1.elo
  · rw [if_pos hc2] at h
    obtain ⟨raw, hraw, h⟩ := exBind_ok h
    try dsimp only at h
    rcases hint : pyInt raw with e | v
    · rw [hint] at h
      try dsimp only at h
      rw [← exPure_ok h]
      refine ⟨rfl, rfl, fun q => ?_⟩
      apply teamOrder_dSet_preserved
      exact hto
    · rw [hint] at h
      try dsimp only at h
      rw [← exPure_ok h]
      refine ⟨rfl, rfl, fun q => ?_⟩
      apply teamOrder_dSet_preserved
      exact hto
  · rw [if_neg hc2] at h
    rw [← exPure_ok h]
    refine ⟨rfl, rfl, fun q => ?_⟩
    apply teamOrder_dSet_preserved
    exact hto

theorem teamsizeBranch_ok {s s' : ParseState} {parts : List String}
    (h : teamsizeBranch s parts = .ok s') :
    s'.pokemon_stats = s.pokemon_stats ∧ s'.active_pokemon = s.active_pokemon ∧
    ∀ q, teamOrderOf s' q = teamOrderOf s q := by
  unfold teamsizeBranch at h
  obtain ⟨pid, hpid, h⟩ := exBind_ok h
  obtain ⟨raw, hraw, h⟩ := exBind_ok h
  obtain ⟨n, hn, h⟩ := exBind_ok h
  try dsimp only at h
  rw [← exPure_ok h]
  refine ⟨rfl, rfl, fun q => ?_⟩
  apply teamOrder_dSet_preserved
  rfl

theorem moveBranch_ok {s s' : ParseState} {parts : List String}
    (h : moveBranch s parts = .ok s') :
    s'.player_stats = s.player_stats ∧ s'.active_pokemon = s.active_pokemon ∧
    ∃ pid nick mv, s'.pokemon_stats = pstatsModify s.pokemon_stats pid nick (addMove mv) := by
  unfold moveBranch at h
  obtain ⟨hdr, hhdr, h⟩ := exBind_ok h
  obtain ⟨pn, hpn, h⟩ := exBind_ok h
  obtain ⟨pid, nick⟩ := pn
  try dsimp only at h
  obtain ⟨mv, hmv, h⟩ := exBind_ok h
  try dsimp only at h
  rw [← exPure_ok h]
  exact ⟨rfl, rfl, pid, nick, mv, rfl⟩

theorem healBranch_ok {s s' : ParseState} {parts : List String}
    (h : healBranch s parts = .ok s') :
    s'.player_stats = s.player_stats ∧ s'.pokemon_stats = s.pokemon_stats ∧
    ∃ k a, s'.active_pokemon = dSet s.active_pokemon k a := by
  unfold healBranch at h
  obtain ⟨hdr, hhdr, h⟩ := exBind_ok h
  obtain ⟨pn, hpn, h⟩ := exBind_ok h
  obtain ⟨pid, nick⟩ := pn
  try dsimp only at h
  obtain ⟨f3, hf3, h⟩ := exBind_ok h
  obtain ⟨nh, hnh, h⟩ := exBind_ok h
  try dsimp only at h
  rw [← exPure_ok h]
  exact ⟨rfl, rfl, pid, ⟨nick, nh⟩, rfl⟩

theorem faintBranch_ok {s s' : ParseState} {parts : List String}
    (h : faintBranch s parts = .ok s') :
    s'.player_stats = s.player_stats ∧ s'.active_pokemon = s.active_pokemon ∧
    ∃ pid nick, s'.pokemon_stats = pstatsModify s.pokemon_stats pid nick addKoRecv := by
  unfold faintBranch at h
  obtain ⟨hdr, hhdr, h⟩ := exBind_ok h
  obtain ⟨pn, hpn, h⟩ := exBind_ok h
  obtain ⟨pid, nick⟩ := pn
  try dsimp only at h
  rw [← exPure_ok h]
  exact ⟨rfl, rfl, pid, nick, rfl⟩

theorem sidestartBranch_ok {s s' : ParseState} {parts : List String}
    (h : sidestartBranch s parts = .ok s') : s' = s := by
  unfold sidestartBranch at h
  obtain ⟨hdr, hhdr, h⟩ := exBind_ok h
  obtain ⟨pn, hpn, h⟩ := exBind_ok h
  obtain ⟨pid, nick⟩ := pn
  try dsimp only at h
  obtain ⟨a, ha, h⟩ := exBind_ok h
  exact (exPure_ok h).symm

theorem sideendBranch_ok {s s' : ParseState} {parts : List String}
    (h : sideendBranch s parts = .ok s') : s' = s := by
  unfold sideendBranch at h
  obtain ⟨hdr, hhdr, h⟩ := exBind_ok h
  obtain ⟨pn, hpn, h⟩ := exBind_ok h
  exact (exPure_ok h).symm

theorem winBranch_ok {s s' : ParseState} {parts : List String}
    (h : winBranch s parts = .ok s') :
    ∃ w, s' = tickActives { s with winner := some w } := by
  unfold winBranch at h
  obtain ⟨w, hw, h⟩ := exBind_ok h
  exact ⟨w, (exPure_ok h).symm⟩

theorem statusBranch_ok {s s' : ParseState} {parts : List String}
    (h : statusBranch s parts = .ok s') :
    s' = s ∨
    (s'.player_stats = s.player_stats ∧ s'.active_pokemon = s.active_pokemon ∧
      ∃ pid nick attn, s'.pokemon_stats =
        pstatsModify (pstatsModify s.pokemon_stats (oppSide pid) attn addSD) pid nick addSR) := by
  unfold statusBranch at h
  by_cases hlen : parts.length = 4
  · rw [if_pos hlen] at h
    obtain ⟨hdr, hhdr, h⟩ := exBind_ok h
    obtain ⟨pn, hpn, h⟩ := exBind_ok h
    obtain ⟨pid, nick⟩ := pn
    try dsimp only at h
    obtain ⟨att, hatt, h⟩ := exBind_ok h
    obtain ⟨st, hst, h⟩ := exBind_ok h
    try dsimp only at h
    rw [← exPure_ok h]
    exact Or.inr ⟨rfl, rfl, pid, nick, att.nickname, rfl⟩
  · rw [if_neg hlen] at h
    exact Or.inl (exPure_ok h).symm

theorem switchBranch_ok {s s' : ParseState} {parts : List String}
    (htag : tagOf parts = "switch" ∨ tagOf parts = "drag")
    (h : switchBranch s parts = .ok s') :
    ∃ pid nick sp hp,
      switchData? parts = some (pid, sp) ∧
      s'.pokemon_stats = pstatsModify s.pokemon_stats pid nick (setSpecies sp) ∧
      s'.active_pokemon = dSet s.active_pokemon pid ⟨nick, hp⟩ ∧
      ∀ q, teamOrderOf s' q =
        if q = pid then pushNew (teamOrderOf s q) sp else teamOrderOf s q := by
  unfold switchBranch at h
  obtain ⟨hdr, hhdr, h⟩ := exBind_ok h
  obtain ⟨pn, hpn, h⟩ := exBind_ok h
  obtain ⟨pid, nick⟩ := pn
  try dsimp only at h
  obtain ⟨f3, hf3, h⟩ := exBind_ok h
  try dsimp only at h
  obtain ⟨f4, hf4, h⟩ := exBind_ok h
  try dsimp only at h
  obtain ⟨hp, hhp, h⟩ := exBind_ok h
  try dsimp only at h
  rw [← exPure_ok h]
  refine ⟨pid, nick, (pySplit ',' f3).headD "", hp, ?_, rfl, rfl, ?_⟩
  · unfold switchData?
    rw [if_pos htag]
    simp only [hhdr, hpn, hf3, hf4, hhp]
  · intro q
    unfold teamOrderOf pushNew
    dsimp only
    rw [dGetD_dSet]
    by_cases hq : q = pid
    · subst hq
      rw [if_pos rfl, if_pos rfl]
      by_cases hm : (pySplit ',' f3).headD "" ∈ (dGetD s.player_stats q defaultPlayer).team_order
      · rw [if_pos hm, if_pos hm]
      · rw [if_neg hm, if_neg hm]
    · rw [if_neg hq, if_neg hq]

theorem damageBranch_ok {s s' : ParseState} {parts : List String}
    (htag : tagOf parts = "-damage")
    (h : damageBranch s parts = .ok s') :
    s'.player_stats = s.player_stats ∧
    ∃ pid nick,
      damageVictim? parts = some pid ∧
      (∃ nh, s'.active_pokemon = dSet s.active_pokemon pid ⟨nick, nh⟩) ∧
      (s'.pokemon_stats = s.pokemon_stats ∨
        ∃ attn δ ps₀,
          (ps₀ = s.pokemon_stats ∨
            ps₀ = pstatsModify s.pokemon_stats (oppSide pid) attn addKoDealt) ∧
          s'.pokemon_stats =
            pstatsModify (pstatsModify ps₀ (oppSide pid) attn (addDealt δ)) pid nick (addRecv δ)) := by
  unfold damageBranch at h
  obtain ⟨hdr, hhdr, h⟩ := exBind_ok h
  obtain ⟨pn, hpn, h⟩ := exBind_ok h
  obtain ⟨pid, nick⟩ := pn
  try dsimp only at h
  obtain ⟨att, hatt, h⟩ := exBind_ok h
  obtain ⟨victim, hvic, h⟩ := exBind_ok h
  try dsimp only at h
  obtain ⟨s4, hs4, h⟩ := exBind_ok h
  obtain ⟨s5, hs5, h⟩ := exBind_ok h
  obtain ⟨nh, hnh, h⟩ := exBind_ok h
  try dsimp only at h
  rw [← exPure_ok h]
  have hvd : damageVictim? parts = some pid := by
    unfold damageVictim?
    rw [if_pos htag]
    simp only [hhdr, hpn]
  have hs4facts : s4.player_stats = s.player_stats ∧ s4.active_pokemon = s.active_pokemon ∧
      (s4.pokemon_stats = s.pokemon_stats ∨
        ∃ attn δ ps₀,
          (ps₀ = s.pokemon_stats ∨
            ps₀ = pstatsModify s.pokemon_stats (oppSide pid) attn addKoDealt) ∧
          s4.pokemon_stats =
            pstatsModify (pstatsModify ps₀ (oppSide pid) attn (addDealt δ)) pid nick (addRecv δ)) := by
    by_cases h4 : parts.length = 4
    · rw [if_pos h4] at hs4
      obtain ⟨f3, hf3, hs4⟩ := exBind_ok hs4
      obtain ⟨sa, hsa, hs4⟩ := exBind_ok hs4
      obtain ⟨sb, hsb, hs4⟩ := exBind_ok hs4
      obtain ⟨nh4, hnh4, hs4⟩ := exBind_ok hs4
      try dsimp only at hs4
      have hsafacts : sa.player_stats = s.player_stats ∧ sa.active_pokemon = s.active_pokemon ∧
          (sa.pokemon_stats = s.pokemon_stats ∨
            sa.pokemon_stats = pstatsModify s.pokemon_stats (oppSide pid) att.nickname addKoDealt) := by
        by_cases hfnt : pyIn "fnt" f3
        · rw [if_pos hfnt] at hsa
          obtain ⟨w, hw, hsa⟩ := exBind_ok hsa
          obtain ⟨nh1, hnh1, hsa⟩ := exBind_ok hsa
          try dsimp only at hsa
          rw [← exPure_ok hsa]
          exact ⟨rfl, rfl, Or.inr rfl⟩
        · rw [if_neg hfnt] at hsa
          rw [← exPure_ok hsa]
          exact ⟨rfl, rfl, Or.inl rfl⟩
      have hsbfacts : sb.player_stats = sa.player_stats ∧ sb.active_pokemon = sa.active_pokemon ∧
          sb.pokemon_stats = sa.pokemon_stats := by
        by_cases hsl : pyIn "/" f3
        · rw [if_pos hsl] at hsb
          obtain ⟨nh2, hnh2, hsb⟩ := exBind_ok hsb
          try dsimp only at hsb
          rw [← exPure_ok hsb]
          exact ⟨rfl, rfl, rfl⟩
        · rw [if_neg hsl] at hsb
          rw [← exPure_ok hsb]
          exact ⟨rfl, rfl, rfl⟩
      rw [← exPure_ok hs4]
      refine ⟨by rw [hsbfacts.1, hsafacts.1], by rw [hsbfacts.2.1, hsafacts.2.1], ?_⟩
      refine Or.inr ⟨att.nickname, victim.hp - nh4, sb.pokemon_stats, ?_, rfl⟩
      rw [hsbfacts.2.2]
      exact hsafacts.2.2
    · rw [if_neg h4] at hs4
      rw [← exPure_ok hs4]
      exact ⟨rfl, rfl, Or.inl rfl⟩
  have hs5facts : s5.player_stats = s4.player_stats ∧ s5.active_pokemon = s4.active_pokemon ∧
      s5.pokemon_stats = s4.pokemon_stats := by
    by_cases h5 : parts.length = 5
    · rw [if_pos h5] at hs5
      obtain ⟨f3, hf3, hs5⟩ := exBind_ok hs5
      obtain ⟨nh5, hnh5, hs5⟩ := exBind_ok hs5
      try dsimp only at hs5
      rw [← exPure_ok hs5]
      exact ⟨rfl, rfl, rfl⟩
    · rw [if_neg h5] at hs5
      rw [← exPure_ok hs5]
      exact ⟨rfl, rfl, rfl⟩
  refine ⟨by dsimp only; rw [hs5facts.1, hs4facts.1], pid, nick, hvd, ?_, ?_⟩
  · exact ⟨nh, by dsimp only; rw [hs5facts.2.1, hs4facts.2.1]⟩
  · have hps : s5.pokemon_stats = s4.pokemon_stats := hs5facts.2.2
    dsimp only
    rw [hps]
    exact hs4facts.2.2

/-! ### Helpers for the per-line case analysis -/

theorem tagOf_of_length_one {parts : List String} (h : parts.length = 1) :
    tagOf parts = "" := by
  cases parts with
  | nil => simp at h
  | cons a t =>
    cases t with
    | nil => rfl
    | cons b t2 => simp at h

theorem switchData?_none {parts : List String}
    (h : ¬(tagOf parts = "switch" ∨ tagOf parts = "drag")) : switchData? parts = none := by
  unfold switchData?
  rw [if_neg h]

theorem damageVictim?_none {parts : List String} (h : ¬tagOf parts = "-damage") :
    damageVictim? parts = none := by
  unfold damageVictim?
  rw [if_neg h]

theorem teamOrderOf_congr {s s' : ParseState} (h : s'.player_stats = s.player_stats)
    (q : String) : teamOrderOf s' q = teamOrderOf s q := by
  unfold teamOrderOf
  rw [h]

theorem statsQuiet_refl (a : Dict String (Dict String PokeStats)) : statsQuiet a a :=
  ⟨fun _ _ => rfl, fun _ => rfl, fun _ => rfl, fun _ => rfl⟩

theorem statsQuiet_of_eq {a b : Dict String (Dict String PokeStats)} (h : a = b) :
    statsQuiet a b := by
  rw [h]
  exact statsQuiet_refl b

theorem statsQuiet_trans {a b c : Dict String (Dict String PokeStats)}
    (h1 : statsQuiet a b) (h2 : statsQuiet b c) : statsQuiet a c :=
  ⟨fun q m => (h1.1 q m).trans (h2.1 q m),
   fun q => (h1.2.1 q).trans (h2.2.1 q),
   fun q => (h1.2.2.1 q).trans (h2.2.2.1 q),
   fun q => (h1.2.2.2 q).trans (h2.2.2.2 q)⟩

theorem statsQuiet_modify (ps : Dict String (Dict String PokeStats))
    (pid nick : String) (f : PokeStats → PokeStats)
    (h1 : ∀ x, (f x).turns_on_field = x.turns_on_field)
    (h2 : ∀ x, (f x).damage_dealt = x.damage_dealt)
    (h3 : ∀ x, (f x).damage_received = x.damage_received) :
    statsQuiet (pstatsModify ps pid nick f) ps := by
  refine ⟨fun q m => ?_, fun q => ?_, fun q => ?_, fun q => ?_⟩
  · rw [pval_pstatsModify]
    by_cases hqm : q = pid ∧ m = nick
    · rw [if_pos hqm, h1, hqm.1, hqm.2]
    · rw [if_neg hqm]
  · rw [sideSum_pstatsModify ps pid nick f (fun p => p.turns_on_field) 0
      (fun x => by simp [h1 x]) rfl q, ite_self, add_zero]
  · rw [sideSum_pstatsModify ps pid nick f (fun p => p.damage_dealt) 0
      (fun x => by simp [h2 x]) rfl q, ite_self, add_zero]
  · rw [sideSum_pstatsModify ps pid nick f (fun p => p.damage_received) 0
      (fun x => by simp [h3 x]) rfl q, ite_self, add_zero]

theorem facts_of_quiet {s s' : ParseState} {parts : List String}
    (hq : statsQuiet s'.pokemon_stats s.pokemon_stats)
    (hnt : isTick parts = false) :
    (∀ q m, turnsAt s q m ≤ turnsAt s' q m) ∧
    (∀ q, sideTurns s' q ≤ sideTurns s q + (if isTick parts = true then 1 else 0)) ∧
    (isTick parts = true → ∀ q a, dFind? s.active_pokemon q = some a →
      turnsAt s' q a.nickname = turnsAt s q a.nickname + 1) ∧
    ((∀ q, sideDealt s' q = sideDealt s q ∧ sideRecv s' q = sideRecv s q) ∨
      (∃ pid δ, damageVictim? parts = some pid ∧
        (∀ q, sideDealt s' q = sideDealt s q + (if q = oppSide pid then δ else 0)) ∧
        (∀ q, sideRecv s' q = sideRecv s q + (if q = pid then δ else 0)))) := by
  refine ⟨fun q m => le_of_eq (hq.1 q m).symm, fun q => ?_,
    fun ht => (Bool.false_ne_true (hnt ▸ ht)).elim,
    Or.inl (fun q => ⟨hq.2.2.1 q, hq.2.2.2 q⟩)⟩
  rw [show sideTurns s' q = sideTurns s q from hq.2.1 q]
  exact Nat.le_add_right _ _

theorem turnsQuiet_modify (ps : Dict String (Dict String PokeStats))
    (pid nick : String) (f : PokeStats → PokeStats)
    (h1 : ∀ x, (f x).turns_on_field = x.turns_on_field) :
    (∀ q m, (pval (pstatsModify ps pid nick f) q m).turns_on_field
      = (pval ps q m).turns_on_field) ∧
    (∀ q, sideSum (pstatsModify ps pid nick f) q (fun p => p.turns_on_field)
      = sideSum ps q (fun p => p.turns_on_field)) := by
  refine ⟨fun q m => ?_, fun q => ?_⟩
  · rw [pval_pstatsModify]
    by_cases hqm : q = pid ∧ m = nick
    · rw [if_pos hqm, h1, hqm.1, hqm.2]
    · rw [if_neg hqm]
  · rw [sideSum_pstatsModify ps pid nick f (fun p => p.turns_on_field) 0
      (fun x => by simp [h1 x]) rfl q, ite_self, add_zero]

theorem damage_sums {s s' : ParseState} {pid nick attn : String} {δ : Int}
    {ps₀ : Dict String (Dict String PokeStats)}
    (hps₀ : ps₀ = s.pokemon_stats ∨
      ps₀ = pstatsModify s.pokemon_stats (oppSide pid) attn addKoDealt)
    (hps : s'.pokemon_stats =
      pstatsModify (pstatsModify ps₀ (oppSide pid) attn (addDealt δ)) pid nick (addRecv δ)) :
    (∀ q, sideDealt s' q = sideDealt s q + (if q = oppSide pid then δ else 0)) ∧
    (∀ q, sideRecv s' q = sideRecv s q + (if q = pid then δ else 0)) ∧
    (∀ q m, (pval s'.pokemon_stats q m).turns_on_field
      = (pval s.pokemon_stats q m).turns_on_field) ∧
    (∀ q, sideSum s'.pokemon_stats q (fun p => p.turns_on_field)
      = sideSum s.pokemon_stats q (fun p => p.turns_on_field)) := by
  have hq0 : statsQuiet ps₀ s.pokemon_stats := by
    rcases hps₀ with h | h
    · exact statsQuiet_of_eq h
    · rw [h]
      exact statsQuiet_modify _ _ _ _ (fun x => rfl) (fun x => rfl) (fun x => rfl)
  have t2 := turnsQuiet_modify (pstatsModify ps₀ (oppSide pid) attn (addDealt δ))
    pid nick (addRecv δ) (fun x => rfl)
  have t1 := turnsQuiet_modify ps₀ (oppSide pid) attn (addDealt δ) (fun x => rfl)
  refine ⟨fun q => ?_, fun q => ?_, fun q m => ?_, fun q => ?_⟩
  · show sideSum s'.pokemon_stats q (fun p => p.damage_dealt) = _
    rw [hps,
      sideSum_pstatsModify _ pid nick (addRecv δ) (fun p => p.damage_dealt) 0
        (fun x => by simp [addRecv]) rfl q,
      ite_self, add_zero,
      sideSum_pstatsModify _ (oppSide pid) attn (addDealt δ) (fun p => p.damage_dealt) δ
        (fun x => rfl) rfl q,
      hq0.2.2.1 q]
    rfl
  · show sideSum s'.pokemon_stats q (fun p => p.damage_received) = _
    rw [hps,
      sideSum_pstatsModify _ pid nick (addRecv δ) (fun p => p.damage_received) δ
        (fun x => rfl) rfl q,
      sideSum_pstatsModify _ (oppSide pid) attn (addDealt δ) (fun p => p.damage_received) 0
        (fun x => by simp [addDealt]) rfl q,
      ite_self, add_zero,
      hq0.2.2.2 q]
    rfl
  · rw [hps, t2.1 q m, t1.1 q m, hq0.1 q m]
  · rw [hps, t2.2 q, t1.2 q, hq0.2.1 q]
theorem isTick_false_of {parts : List String}
    (h1 : ¬tagOf parts = "turn") (h2 : ¬tagOf parts = "win") : isTick parts = false := by
  unfold isTick
  simp only [Bool.or_eq_false_iff, decide_eq_false_iff_not]
  exact ⟨h1, h2⟩

theorem tick_case_facts {s s₀ : ParseState}
    (hnd : (dKeys s.active_pokemon).Nodup)
    (hps : s₀.pokemon_stats = s.pokemon_stats)
    (ha : s₀.active_pokemon = s.active_pokemon)
    (hpl : s₀.player_stats = s.player_stats) :
    (dKeys (tickActives s₀).active_pokemon).Nodup ∧
    (∀ q, teamOrderOf (tickActives s₀) q = teamOrderOf s q) ∧
    (∀ q m, turnsAt s q m ≤ turnsAt (tickActives s₀) q m) ∧
    (∀ q, sideTurns (tickActives s₀) q ≤ sideTurns s q + 1) ∧
    (∀ q a, dFind? s.active_pokemon q = some a →
      turnsAt (tickActives s₀) q a.nickname = turnsAt s q a.nickname + 1) ∧
    (∀ q, sideDealt (tickActives s₀) q = sideDealt s q ∧
      sideRecv (tickActives s₀) q = sideRecv s q) := by
  have hstats : (tickActives s₀).pokemon_stats = tickFold s.pokemon_stats s.active_pokemon := by
    unfold tickActives
    dsimp only
    rw [hps, ha]
  have hact : (tickActives s₀).active_pokemon = s.active_pokemon := by
    unfold tickActives
    exact ha
  refine ⟨?_, ?_, ?_, ?_, ?_, ?_⟩
  · rw [hact]
    exact hnd
  · intro q
    apply teamOrderOf_congr
    unfold tickActives
    exact hpl
  · intro q m
    unfold turnsAt pokeVal
    rw [hstats]
    exact tickFold_turns_ge _ _ q m
  · intro q
    unfold sideTurns
    rw [hstats, tickFold_sideTurns _ _ q hnd]
    by_cases hm : q ∈ dKeys s.active_pokemon
    · rw [if_pos hm]
    · rw [if_neg hm]
      exact Nat.le_succ_of_le (Nat.le_of_eq (Nat.add_zero _))
  · intro q a hfind
    unfold turnsAt pokeVal
    rw [hstats]
    exact tickFold_turns_active _ _ q a hnd hfind
  · intro q
    constructor
    · unfold sideDealt
      rw [hstats]
      exact tickFold_sideSum_proj _ _ (fun p => p.damage_dealt) (fun x => rfl) rfl q
    · unfold sideRecv
      rw [hstats]
      exact tickFold_sideSum_proj _ _ (fun p => p.damage_received) (fun x => rfl) rfl q

theorem dispatch_facts {s s' : ParseState} {parts : List String}
    (hnd : (dKeys s.active_pokemon).Nodup)
    (h : dispatch s parts = .ok s') :
    (dKeys s'.active_pokemon).Nodup ∧
    (∀ q, teamOrderOf s' q =
      (match switchData? parts with
       | some psp => if q = psp.1 then pushNew (teamOrderOf s q) psp.2 else teamOrderOf s q
       | none => teamOrderOf s q)) ∧
    (∀ q m, turnsAt s q m ≤ turnsAt s' q m) ∧
    (∀ q, sideTurns s' q ≤ sideTurns s q + (if isTick parts = true then 1 else 0)) ∧
    (isTick parts = true → ∀ q a, dFind? s.active_pokemon q = some a →
      turnsAt s' q a.nickname = turnsAt s q a.nickname + 1) ∧
    ((∀ q, sideDealt s' q = sideDealt s q ∧ sideRecv s' q = sideRecv s q) ∨
      (∃ pid δ, damageVictim? parts = some pid ∧
        (∀ q, sideDealt s' q = sideDealt s q + (if q = oppSide pid then δ else 0)) ∧
        (∀ q, sideRecv s' q = sideRecv s q + (if q = pid then δ else 0)))) := by
  unfold dispatch at h
  try dsimp only at h
  by_cases hlen : parts.length = 1
  · rw [if_pos hlen] at h
    obtain rfl : s' = s := (Except.ok.inj h).symm
    have hnt : isTick parts = false :=
      isTick_false_of (by rw [tagOf_of_length_one hlen]; decide)
        (by rw [tagOf_of_length_one hlen]; decide)
    have hsw : switchData? parts = none :=
      switchData?_none (by rw [tagOf_of_length_one hlen]; decide)
    exact ⟨hnd, fun q => by rw [hsw],
      facts_of_quiet (statsQuiet_refl _) hnt⟩
  rw [if_neg hlen] at h
  by_cases t1 : tagOf parts = "player"
  · rw [if_pos t1] at h
    obtain ⟨hps, ha, hteam⟩ := playerBranch_ok h
    have hnt : isTick parts = false :=
      isTick_false_of (by rw [t1]; decide) (by rw [t1]; decide)
    have hsw : switchData? parts = none := switchData?_none (by rw [t1]; decide)
    exact ⟨by rw [ha]; exact hnd, fun q => by rw [hsw]; exact hteam q,
      facts_of_quiet (statsQuiet_of_eq hps) hnt⟩
  rw [if_neg t1] at h
  by_cases t2 : tagOf parts = "teamsize"
  · rw [if_pos t2] at h
    obtain ⟨hps, ha, hteam⟩ := teamsizeBranch_ok h
    have hnt : isTick parts = false :=
      isTick_false_of (by rw [t2]; decide) (by rw [t2]; decide)
    have hsw : switchData? parts = none := switchData?_none (by rw [t2]; decide)
    exact ⟨by rw [ha]; exact hnd, fun q => by rw [hsw]; exact hteam q,
      facts_of_quiet (statsQuiet_of_eq hps) hnt⟩
  rw [if_neg t2] at h
  by_cases t3 : tagOf parts = "switch" ∨ tagOf parts = "drag"
  · rw [if_pos t3] at h
    obtain ⟨pid, nick, sp, hp, hdata, hps, ha, hteam⟩ := switchBranch_ok t3 h
    have hnt : isTick parts = false := by
      rcases t3 with t | t
      · exact isTick_false_of (by rw [t]; decide) (by rw [t]; decide)
      · exact isTick_false_of (by rw [t]; decide) (by rw [t]; decide)
    have hq : statsQuiet s'.pokemon_stats s.pokemon_stats := by
      rw [hps]
      exact statsQuiet_modify _ _ _ _ (fun x => rfl) (fun x => rfl) (fun x => rfl)
    exact ⟨by rw [ha]; exact keysNodup_dSet _ hnd,
      fun q => by rw [hdata]; exact hteam q,
      facts_of_quiet hq hnt⟩
  rw [if_neg t3] at h
  by_cases t4 : tagOf parts = "turn"
  · rw [if_pos t4] at h
    obtain rfl : s' = tickActives { s with n_turns := s.n_turns + 1 } :=
      (Except.ok.inj h).symm
    have htick : isTick parts = true := by
      unfold isTick
      rw [t4]
      decide
    have hsw : switchData? parts = none := switchData?_none (by rw [t4]; decide)
    obtain ⟨f1, f2, f3, f4, f5, f6⟩ := tick_case_facts hnd rfl rfl rfl
    refine ⟨f1, fun q => by rw [hsw]; exact f2 q, f3, fun q => ?_,
      fun _ => f5, Or.inl f6⟩
    rw [if_pos htick]
    exact f4 q
  rw [if_neg t4] at h
  by_cases t5 : tagOf parts = "win"
  · rw [if_pos t5] at h
    obtain ⟨w, rfl⟩ := winBranch_ok h
    have htick : isTick parts = true := by
      unfold isTick
      rw [t5]
      decide
    have hsw : switchData? parts = none := switchData?_none (by rw [t5]; decide)
    obtain ⟨f1, f2, f3, f4, f5, f6⟩ := tick_case_facts hnd rfl rfl rfl
    refine ⟨f1, fun q => by rw [hsw]; exact f2 q, f3, fun q => ?_,
      fun _ => f5, Or.inl f6⟩
    rw [if_pos htick]
    exact f4 q
  rw [if_neg t5] at h
  by_cases t6 : tagOf parts = "move"
  · rw [if_pos t6] at h
    obtain ⟨hpl, ha, pid, nick, mv, hps⟩ := moveBranch_ok h
    have hnt : isTick parts = false :=
      isTick_false_of (by rw [t6]; decide) (by rw [t6]; decide)
    have hsw : switchData? parts = none := switchData?_none (by rw [t6]; decide)
    have hq : statsQuiet s'.pokemon_stats s.pokemon_stats := by
      rw [hps]
      exact statsQuiet_modify _ _ _ _ (fun x => rfl) (fun x => rfl) (fun x => rfl)
    exact ⟨by rw [ha]; exact hnd,
      fun q => by rw [hsw]; exact teamOrderOf_congr hpl q,
      facts_of_quiet hq hnt⟩
  rw [if_neg t6] at h
  by_cases t7 : tagOf parts = "-status"
  · rw [if_pos t7] at h
    have hnt : isTick parts = false :=
      isTick_false_of (by rw [t7]; decide) (by rw [t7]; decide)
    have hsw : switchData? parts = none := switchData?_none (by rw [t7]; decide)
    rcases statusBranch_ok h with rfl | ⟨hpl, ha, pid, nick, attn, hps⟩
    · exact ⟨hnd, fun q => by rw [hsw], facts_of_quiet (statsQuiet_refl _) hnt⟩
    · have hq : statsQuiet s'.pokemon_stats s.pokemon_stats := by
        rw [hps]
        exact statsQuiet_trans
          (statsQuiet_modify _ _ _ _ (fun x => rfl) (fun x => rfl) (fun x => rfl))
          (statsQuiet_modify _ _ _ _ (fun x => rfl) (fun x => rfl) (fun x => rfl))
      exact ⟨by rw [ha]; exact hnd,
        fun q => by rw [hsw]; exact teamOrderOf_congr hpl q,
        facts_of_quiet hq hnt⟩
  rw [if_neg t7] at h
  by_cases t8 : tagOf parts = "-damage"
  · rw [if_pos t8] at h
    have hnt : isTick parts = false :=
      isTick_false_of (by rw [t8]; decide) (by rw [t8]; decide)
    have hsw : switchData? parts = none := switchData?_none (by rw [t8]; decide)
    obtain ⟨hpl, pid, nick, hvd, ⟨nh, ha⟩, hstats⟩ := damageBranch_ok t8 h
    rcases hstats with hps | ⟨attn, δ, ps₀, hps₀, hps⟩
    · exact ⟨by rw [ha]; exact keysNodup_dSet _ hnd,
        fun q => by rw [hsw]; exact teamOrderOf_congr hpl q,
        facts_of_quiet (statsQuiet_of_eq hps) hnt⟩
    · obtain ⟨hdealt, hrecv, hpt, hsum⟩ := damage_sums hps₀ hps
      refine ⟨by rw [ha]; exact keysNodup_dSet _ hnd,
        fun q => by rw [hsw]; exact teamOrderOf_congr hpl q,
        fun q m => le_of_eq (hpt q m).symm, fun q => ?_,
        fun ht => (Bool.false_ne_true (hnt ▸ ht)).elim,
        Or.inr ⟨pid, δ, hvd, hdealt, hrecv⟩⟩
      rw [show sideTurns s' q = sideTurns s q from hsum q]
      exact Nat.le_add_right _ _
  rw [if_neg t8] at h
  by_cases t9 : tagOf parts = "-heal"
  · rw [if_pos t9] at h
    obtain ⟨hpl, hps, k, a, ha⟩ := healBranch_ok h
    have hnt : isTick parts = false :=
      isTick_false_of (by rw [t9]; decide) (by rw [t9]; decide)
    have hsw : switchData? parts = none := switchData?_none (by rw [t9]; decide)
    exact ⟨by rw [ha]; exact keysNodup_dSet _ hnd,
      fun q => by rw [hsw]; exact teamOrderOf_congr hpl q,
      facts_of_quiet (statsQuiet_of_eq hps) hnt⟩
  rw [if_neg t9] at h
  by_cases t10 : tagOf parts = "faint"
  · rw [if_pos t10] at h
    obtain ⟨hpl, ha, pid, nick, hps⟩ := faintBranch_ok h
    have hnt : isTick parts = false :=
      isTick_false_of (by rw [t10]; decide) (by rw [t10]; decide)
    have hsw : switchData? parts = none := switchData?_none (by rw [t10]; decide)
    have hq : statsQuiet s'.pokemon_stats s.pokemon_stats := by
      rw [hps]
      exact statsQuiet_modify _ _ _ _ (fun x => rfl) (fun x => rfl) (fun x => rfl)
    exact ⟨by rw [ha]; exact hnd,
      fun q => by rw [hsw]; exact teamOrderOf_congr hpl q,
      facts_of_quiet hq hnt⟩
  rw [if_neg t10] at h
  by_cases t11 : tagOf parts = "-sidestart"
  · rw [if_pos t11] at h
    obtain rfl := sidestartBranch_ok h
    have hnt : isTick parts = false :=
      isTick_false_of (by rw [t11]; decide) (by rw [t11]; decide)
    have hsw : switchData? parts = none := switchData?_none (by rw [t11]; decide)
    exact ⟨hnd, fun q => by rw [hsw], facts_of_quiet (statsQuiet_refl _) hnt⟩
  rw [if_neg t11] at h
  by_cases t12 : tagOf parts = "-sideend"
  · rw [if_pos t12] at h
    obtain rfl := sideendBranch_ok h
    have hnt : isTick parts = false :=
      isTick_false_of (by rw [t12]; decide) (by rw [t12]; decide)
    have hsw : switchData? parts = none := switchData?_none (by rw [t12]; decide)
    exact ⟨hnd, fun q => by rw [hsw], facts_of_quiet (statsQuiet_refl _) hnt⟩
  rw [if_neg t12] at h
  obtain rfl : s' = s := (Except.ok.inj h).symm
  have hnt : isTick parts = false := isTick_false_of t4 t5
  have hsw : switchData? parts = none := switchData?_none t3
  exact ⟨hnd, fun q => by rw [hsw], facts_of_quiet (statsQuiet_refl _) hnt⟩

/-! ### Lemmas about whole-stream processing -/

theorem exbind_okE {α β : Type} (a : α) (f : α → Except PyErr β) :
    (Except.ok a : Except PyErr α) >>= f = f a := rfl

theorem exbind_errE {α β : Type} (e : PyErr) (f : α → Except PyErr β) :
    (Except.error e : Except PyErr α) >>= f = .error e := rfl

theorem oppSide_ne (pid : String) : oppSide pid ≠ pid := by
  unfold oppSide
  by_cases h : pid = "p2"
  · rw [if_pos h, h]
    decide
  · rw [if_neg h]
    exact fun hh => h hh.symm

theorem switchSpeciesSeq_cons (l : String) (ls : List String) (q : String) :
    switchSpeciesSeq (l :: ls) q =
      (match lineSwitchData l with
       | some psp => if psp.1 = q then psp.2 :: switchSpeciesSeq ls q else switchSpeciesSeq ls q
       | none => switchSpeciesSeq ls q) := by
  unfold switchSpeciesSeq
  rcases hld : lineSwitchData l with _ | psp
  · simp [List.filterMap_cons, hld]
  · by_cases hpq : psp.1 = q
    · simp [List.filterMap_cons, hld, hpq]
    · simp [List.filterMap_cons, hld, hpq]

theorem tickLineCount_cons (l : String) (ls : List String) :
    tickLineCount (l :: ls) = (if lineIsTick l = true then 1 else 0) + tickLineCount ls := by
  unfold tickLineCount
  by_cases ht : lineIsTick l = true
  · simp [List.filter_cons, ht, Nat.add_comm]
  · simp [List.filter_cons, ht]

theorem turnLineCount_cons (l : String) (ls : List String) :
    turnLineCount (l :: ls) =
      (if tagOf (pySplit '|' (pyStrip l)) = "turn" then 1 else 0) + turnLineCount ls := by
  unfold turnLineCount
  by_cases h : tagOf (pySplit '|' (pyStrip l)) = "turn"
  · have hb : (tagOf (pySplit '|' (pyStrip l)) == "turn") = true := beq_iff_eq.mpr h
    simp [List.filter_cons, hb, h, Nat.add_comm]
  · have hb : (tagOf (pySplit '|' (pyStrip l)) == "turn") = false :=
      beq_eq_false_iff_ne.mpr h
    simp [List.filter_cons, hb, h]

theorem winLineCount_cons (l : String) (ls : List String) :
    winLineCount (l :: ls) =
      (if tagOf (pySplit '|' (pyStrip l)) = "win" then 1 else 0) + winLineCount ls := by
  unfold winLineCount
  by_cases h : tagOf (pySplit '|' (pyStrip l)) = "win"
  · have hb : (tagOf (pySplit '|' (pyStrip l)) == "win") = true := beq_iff_eq.mpr h
    simp [List.filter_cons, hb, h, Nat.add_comm]
  · have hb : (tagOf (pySplit '|' (pyStrip l)) == "win") = false :=
      beq_eq_false_iff_ne.mpr h
    simp [List.filter_cons, hb, h]

theorem tickLineCount_eq (lines : List String) :
    tickLineCount lines = turnLineCount lines + winLineCount lines := by
  induction lines with
  | nil => rfl
  | cons l ls ih =>
    rw [tickLineCount_cons, turnLineCount_cons, winLineCount_cons, ih]
    by_cases h1 : tagOf (pySplit '|' (pyStrip l)) = "turn"
    · have ht : lineIsTick l = true := by
        unfold lineIsTick isTick
        rw [h1]
        decide
      have h2 : ¬tagOf (pySplit '|' (pyStrip l)) = "win" := by
        rw [h1]
        decide
      rw [ht, if_pos rfl, if_pos h1, if_neg h2]
      omega
    · by_cases h2 : tagOf (pySplit '|' (pyStrip l)) = "win"
      · have ht : lineIsTick l = true := by
          unfold lineIsTick isTick
          rw [h2]
          decide
        rw [ht, if_pos rfl, if_neg h1, if_pos h2]
        omega
      · have ht : lineIsTick l = false := isTick_false_of h1 h2
        rw [ht, if_neg (by decide : ¬false = true), if_neg h1, if_neg h2]
        omega

theorem nodup_foldl_pushNew (l : List String) :
    ∀ acc : List String, acc.Nodup → (List.foldl pushNew acc l).Nodup := by
  induction l with
  | nil => exact fun acc h => h
  | cons sp t ih =>
    intro acc h
    rw [List.foldl_cons]
    apply ih
    unfold pushNew
    by_cases hm : sp ∈ acc
    · rw [if_pos hm]
      exact h
    · rw [if_neg hm]
      simpa [List.nodup_append] using ⟨h, hm⟩

theorem foldl_pushNew_ne_nil (l : List String) :
    ∀ acc : List String, acc ≠ [] → List.foldl pushNew acc l ≠ [] := by
  induction l with
  | nil => exact fun acc h => h
  | cons sp t ih =>
    intro acc h
    rw [List.foldl_cons]
    apply ih
    unfold pushNew
    by_cases hm : sp ∈ acc
    · rw [if_pos hm]
      exact h
    · rw [if_neg hm]
      simp

theorem firstAppear_eq_nil_iff (l : List String) : firstAppear l = [] ↔ l = [] := by
  constructor
  · intro h
    cases l with
    | nil => rfl
    | cons sp t =>
      exfalso
      unfold firstAppear at h
      rw [List.foldl_cons] at h
      refine foldl_pushNew_ne_nil t (pushNew [] sp) ?_ h
      unfold pushNew
      simp
  · intro h
    rw [h]
    rfl

theorem processLines_append {l1 l2 : List String} {s : ParseState} {s2 : ParseState}
    (h : processLines s (l1 ++ l2) = .ok s2) :
    ∃ s1, processLines s l1 = .ok s1 ∧ processLines s1 l2 = .ok s2 := by
  induction l1 generalizing s with
  | nil => exact ⟨s, rfl, h⟩
  | cons l t ih =>
    rw [List.cons_append] at h
    unfold processLines at h
    rcases hstep : processLine s l with e | sm
    · rw [hstep] at h
      exact absurd h (fun hh => Except.noConfusion hh)
    · rw [hstep] at h
      obtain ⟨s1, h1, h2⟩ := ih h
      refine ⟨s1, ?_, h2⟩
      unfold processLines
      rw [hstep]
      exact h1

theorem processLines_facts {lines : List String} {s s' : ParseState}
    (hnd : (dKeys s.active_pokemon).Nodup)
    (h : processLines s lines = .ok s') :
    (dKeys s'.active_pokemon).Nodup ∧
    (∀ q, teamOrderOf s' q = List.foldl pushNew (teamOrderOf s q) (switchSpeciesSeq lines q)) ∧
    (∀ q m, turnsAt s q m ≤ turnsAt s' q m) ∧
    (∀ q, sideTurns s' q ≤ sideTurns s q + tickLineCount lines) ∧
    ((∀ line ∈ lines, damageSidesOK line = true) →
      (sideDealt s' "p1" - sideRecv s' "p2" = sideDealt s "p1" - sideRecv s "p2") ∧
      (sideDealt s' "p2" - sideRecv s' "p1" = sideDealt s "p2" - sideRecv s "p1")) := by
  induction lines generalizing s with
  | nil =>
    have hs : s' = s := (Except.ok.inj h).symm
    subst hs
    exact ⟨hnd, fun q => rfl, fun q m => le_refl _, fun q => Nat.le_add_right _ _,
      fun _ => ⟨rfl, rfl⟩⟩
  | cons l ls ih =>
    unfold processLines at h
    rcases hstep : processLine s l with e | s₁
    · rw [hstep] at h
      exact absurd h (fun hh => Except.noConfusion hh)
    · rw [hstep] at h
      have hd := dispatch_facts hnd
        (show dispatch s (pySplit '|' (pyStrip l)) = .ok s₁ from hstep)
      obtain ⟨g1, g2, g3, g4, g5⟩ := ih hd.1 h
      refine ⟨g1, ?_, ?_, ?_, ?_⟩
      · intro q
        rw [g2 q, switchSpeciesSeq_cons]
        have h2 := hd.2.1 q
        rcases hld : lineSwitchData l with _ | psp
        · rw [show switchData? (pySplit '|' (pyStrip l)) = none from hld] at h2
          dsimp only at h2
          simp only [hld]
          rw [h2]
        · rw [show switchData? (pySplit '|' (pyStrip l)) = some psp from hld] at h2
          dsimp only at h2
          simp only [hld]
          by_cases hpq : q = psp.1
          · rw [if_pos hpq] at h2
            rw [if_pos hpq.symm, List.foldl_cons, h2]
          · rw [if_neg hpq] at h2
            rw [if_neg (fun hh => hpq hh.symm), h2]
      · exact fun q m => le_trans (hd.2.2.1 q m) (g3 q m)
      · intro q
        rw [tickLineCount_cons]
        calc sideTurns s' q ≤ sideTurns s₁ q + tickLineCount ls := g4 q
          _ ≤ (sideTurns s q + (if isTick (pySplit '|' (pyStrip l)) = true then 1 else 0))
              + tickLineCount ls := Nat.add_le_add_right (hd.2.2.2.1 q) _
          _ = sideTurns s q + ((if lineIsTick l = true then 1 else 0) + tickLineCount ls) := by
              rw [Nat.add_assoc]
              rfl
      · intro hside
        have hokl : damageSidesOK l = true := hside l (List.mem_cons_self l ls)
        have hokt : ∀ line ∈ ls, damageSidesOK line = true :=
          fun line hm => hside line (List.mem_cons_of_mem l hm)
        obtain ⟨e1, e2⟩ := g5 hokt
        have hstepsums :
            (sideDealt s₁ "p1" - sideRecv s₁ "p2" = sideDealt s "p1" - sideRecv s "p2") ∧
            (sideDealt s₁ "p2" - sideRecv s₁ "p1" = sideDealt s "p2" - sideRecv s "p1") := by
          rcases hd.2.2.2.2.2 with hq | ⟨pid, δ, hvd, hdealt, hrecv⟩
          · rw [(hq "p1").1, (hq "p2").1, (hq "p1").2, (hq "p2").2]
            exact ⟨rfl, rfl⟩
          · have hpid : pid = "p1" ∨ pid = "p2" := by
              unfold damageSidesOK damageVictimOfLine at hokl
              rw [hvd] at hokl
              rcases Bool.or_eq_true_iff.mp hokl with hb | hb
              · exact Or.inl (beq_iff_eq.mp hb)
              · exact Or.inr (beq_iff_eq.mp hb)
            rcases hpid with rfl | rfl
            · refine ⟨?_, ?_⟩
              · rw [hdealt "p1", hrecv "p2", show oppSide "p1" = "p2" from rfl,
                  if_neg (by decide : ¬("p1" : String) = "p2"),
                  if_neg (by decide : ¬("p2" : String) = "p1"), add_zero, add_zero]
              · rw [hdealt "p2", hrecv "p1", show oppSide "p1" = "p2" from rfl,
                  if_pos rfl, if_pos rfl]
                ring
            · refine ⟨?_, ?_⟩
              · rw [hdealt "p1", hrecv "p2", show oppSide "p2" = "p1" from rfl,
                  if_pos rfl, if_pos rfl]
                ring
              · rw [hdealt "p2", hrecv "p1", show oppSide "p2" = "p1" from rfl,
                  if_neg (by decide : ¬("p2" : String) = "p1"),
                  if_neg (by decide : ¬("p1" : String) = "p2"), add_zero, add_zero]
        exact ⟨by rw [e1, hstepsums.1], by rw [e2, hstepsums.2]⟩

/-! ### String lemmas for the header parser (claim C10) -/

theorem splitOnChar_ne_nil (sep : Char) (l : List Char) : splitOnChar sep l ≠ [] := by
  cases l with
  | nil => simp [splitOnChar]
  | cons c cs =>
    unfold splitOnChar
    rcases splitOnChar sep cs with _ | ⟨h, t⟩
    · simp
    · by_cases hc : c = sep <;> simp [hc]

theorem splitOnChar_headD (sep : Char) (l : List Char) :
    (splitOnChar sep l).headD [] = l.takeWhile (fun c => c != sep) := by
  induction l with
  | nil => rfl
  | cons c cs ih =>
    unfold splitOnChar
    rcases hr : splitOnChar sep cs with _ | ⟨h, t⟩
    · exact absurd hr (splitOnChar_ne_nil sep cs)
    · by_cases hc : c = sep
      · subst hc
        simp [List.takeWhile_cons]
      · rw [hr] at ih
        simp only [List.headD_cons] at ih
        simp [List.takeWhile_cons, hc, ih]

theorem joinAux_cons₂ (sep c : Char) (h : List Char) (t : List (List Char)) :
    joinAux sep ((c :: h) :: t) = c :: joinAux sep (h :: t) := by
  cases t with
  | nil => rfl
  | cons t1 t2 => rfl

theorem joinAux_splitOnChar (sep : Char) (l : List Char) :
    joinAux sep (splitOnChar sep l) = l := by
  induction l with
  | nil => rfl
  | cons c cs ih =>
    unfold splitOnChar
    rcases hr : splitOnChar sep cs with _ | ⟨h, t⟩
    · exact absurd hr (splitOnChar_ne_nil sep cs)
    · rw [hr] at ih
      by_cases hc : c = sep
      · subst hc
        simp only [if_pos rfl]
        show c :: joinAux c (h :: t) = c :: cs
        rw [ih]
      · simp only [if_neg hc, joinAux_cons₂, ih]

theorem joinAux_splitOnChar_drop (sep : Char) (l : List Char) :
    joinAux sep ((splitOnChar sep l).drop 1) = (l.dropWhile (fun c => c != sep)).drop 1 := by
  induction l with
  | nil => rfl
  | cons c cs ih =>
    by_cases hc : c = sep
    · subst hc
      have h1 : splitOnChar c (c :: cs) = [] :: splitOnChar c cs := by
        conv_lhs => unfold splitOnChar
        rcases hr : splitOnChar c cs with _ | ⟨h, t⟩
        · exact absurd hr (splitOnChar_ne_nil c cs)
        · dsimp only
          rw [if_pos rfl]
      rw [h1]
      simp only [List.drop_succ_cons, List.drop_zero]
      rw [joinAux_splitOnChar]
      have hb : ((c != c) : Bool) = false := by simp
      simp [List.dropWhile_cons, hb]
    · have hr2 : ∃ h t, splitOnChar sep cs = h :: t ∧
          splitOnChar sep (c :: cs) = (c :: h) :: t := by
        rcases hr : splitOnChar sep cs with _ | ⟨h, t⟩
        · exact absurd hr (splitOnChar_ne_nil sep cs)
        · refine ⟨h, t, rfl, ?_⟩
          conv_lhs => unfold splitOnChar
          rw [hr]
          dsimp only
          rw [if_neg hc]
          
      obtain ⟨h, t, hr, h2⟩ := hr2
      rw [h2]
      simp only [List.drop_succ_cons, List.drop_zero]
      have hb : ((c != sep) : Bool) = true := bne_iff_ne.mpr hc
      rw [show List.dropWhile (fun x => x != sep) (c :: cs)
          = List.dropWhile (fun x => x != sep) cs by simp [List.dropWhile_cons, hb]]
      rw [hr] at ih
      simp only [List.drop_succ_cons, List.drop_zero] at ih
      exact ih

theorem splitOnChar_length_one (sep : Char) (l : List Char)
    (h : (splitOnChar sep l).length = 1) :
    l.dropWhile (fun c => c != sep) = [] := by
  induction l with
  | nil => rfl
  | cons c cs ih =>
    unfold splitOnChar at h
    rcases hr : splitOnChar sep cs with _ | ⟨hh, t⟩
    · exact absurd hr (splitOnChar_ne_nil sep cs)
    · rw [hr] at h
      dsimp only at h
      by_cases hc : c = sep
      · rw [if_pos hc] at h
        simp at h
      · rw [if_neg hc] at h
        simp only [List.length_cons] at h
        have ht : t = [] := by
          cases t with
          | nil => rfl
          | cons a b => simp at h
        have hbne : (c != sep) = true := bne_iff_ne.mpr hc
        simp only [List.dropWhile_cons, hbne, if_true]
        apply ih
        rw [hr, ht]
        rfl

theorem headD_map_mk (l : List (List Char)) :
    (l.map String.mk).headD "" = String.mk (l.headD []) := by
  cases l <;> rfl

theorem map_data_map_mk (l : List (List Char)) :
    (l.map String.mk).map String.data = l := by
  rw [List.map_map]
  have hcomp : String.data ∘ String.mk = id := funext fun x => rfl
  rw [hcomp, List.map_id]

/-- The header parser, described the way claim C10 words it: on any header
whose before-colon part holds a nonblank character, it returns the first
two characters of the last whitespace-separated token before the first
colon, and the whitespace-stripped remainder after the first colon. -/
theorem parse_log_header_spec (header : String)
    (hnb : pySplitWs (beforeColon header) ≠ []) :
    parse_log_header header =
      .ok (pyTake 2 ((pySplitWs (beforeColon header)).getLastD ""),
           pyStrip (afterColon header)) := by
  simp only [parse_log_header]
  have hhead : (pySplit ':' header).headD "" = beforeColon header := by
    unfold pySplit beforeColon
    rw [headD_map_mk, splitOnChar_headD]
  rw [hhead]
  rcases hlast : (pySplitWs (beforeColon header)).getLast? with _ | tok
  · exact absurd (List.getLast?_eq_none_iff.mp hlast) hnb
  · have hjoin : pyJoin ':' ((pySplit ':' header).drop 1) = afterColon header := by
      unfold pyJoin pySplit afterColon
      rw [← List.map_drop, map_data_map_mk, joinAux_splitOnChar_drop]
    rw [hjoin]
    have htok : (pySplitWs (beforeColon header)).getLastD "" = tok := by
      rw [List.getLastD_eq_getLast?, hlast]
      rfl
    rw [htok]

/-- Claim C10 (confirmed): `parse_log_header` returns the first two
characters of the last whitespace-separated token preceding the first
colon as side identifier (so a prefixed header resolves correctly), and
the colon-joined remainder, stripped, as nickname; a header with no colon
yields an empty nickname.  The right-hand sides are computed by an
independent rendering (`beforeColon`/`afterColon` via take/drop) of the
claim's wording, not by the source's split/join route. -/
theorem C10_header_parsing :
    (∀ header : String,
      2 ≤ (pySplit ':' header).length →
      pySplitWs (beforeColon header) ≠ [] →
      parse_log_header header =
        .ok (pyTake 2 ((pySplitWs (beforeColon header)).getLastD ""),
             pyStrip (afterColon header))) ∧
    (∀ header : String,
      (pySplit ':' header).length = 1 →
      pySplitWs header ≠ [] →
      parse_log_header header =
        .ok (pyTake 2 ((pySplitWs header).getLastD ""), "")) := by
  constructor
  · intro header _ hnb
    exact parse_log_header_spec header hnb
  · intro header hlen hnb
    have hbefore : beforeColon header = header := by
      unfold beforeColon
      have hdrop : header.data.dropWhile (fun c => c != ':') = [] := by
        apply splitOnChar_length_one ':'
        unfold pySplit at hlen
        rw [List.length_map] at hlen
        exact hlen
      have htake : header.data.takeWhile (fun c => c != ':') = header.data := by
        have := List.takeWhile_append_dropWhile (p := fun c => c != ':')
          (l := header.data)
        rw [hdrop, List.append_nil] at this
        exact this
      rw [htake]
    have hafter : afterColon header = "" := by
      unfold afterColon
      rw [splitOnChar_length_one ':' header.data
        (by unfold pySplit at hlen; rw [List.length_map] at hlen; exact hlen)]
      rfl
    have := parse_log_header_spec header (by rw [hbefore]; exact hnb)
    rw [hbefore, hafter] at this
    exact this

/-- Witness for C10 at the prefixed header of the claim and at a plain
header. -/
theorem C10_header_parsing_witness :
    2 ≤ (pySplit ':' "[of] p1a: Nick").length ∧
    pySplitWs (beforeColon "[of] p1a: Nick") ≠ [] ∧
    parse_log_header "[of] p1a: Nick" =
      .ok (pyTake 2 ((pySplitWs (beforeColon "[of] p1a: Nick")).getLastD ""),
           pyStrip (afterColon "[of] p1a: Nick")) ∧
    parse_log_header "[of] p1a: Nick" = .ok ("p1", "Nick") ∧
    (pySplit ':' "nocolon").length = 1 ∧
    pySplitWs "nocolon" ≠ [] ∧
    parse_log_header "nocolon" =
      .ok (pyTake 2 ((pySplitWs "nocolon").getLastD ""), "") :=
  ⟨by decide, by decide,
   C10_header_parsing.1 "[of] p1a: Nick" (by decide) (by decide), rfl,
   by decide, by decide,
   C10_header_parsing.2 "nocolon" (by decide) (by decide)⟩

/-! ### Claims C7, C8, C9 -/

/-- Claim C7 (confirmed): for every successfully processed log and every
side, the recorded team order is duplicate-free and equals the
first-appearance dedup of the species sequence registered by the side's
well-formed `switch`/`drag` lines; the lead is the team order's first
element and is absent exactly when the side never had an entry event.
(`leadOf` is modelled from the spec, since the source's row assembly reads
an undefined `p1_lead`/`p2_lead`.) -/
theorem C7_roster_lead :
    ∀ (log : String) (s : ParseState), processLog log = .ok s → ∀ q,
      (teamOrderOf s q).Nodup ∧
      teamOrderOf s q = firstAppear (switchSpeciesSeq (logLines log) q) ∧
      leadOf s q = (teamOrderOf s q).head? ∧
      (leadOf s q = none ↔ switchSpeciesSeq (logLines log) q = []) := by
  intro log s h q
  have hf := processLines_facts
    (show (dKeys initState.active_pokemon).Nodup from List.nodup_nil) h
  have hteam := hf.2.1 q
  have hinit : teamOrderOf initState q = [] := rfl
  rw [hinit] at hteam
  have hteam' : teamOrderOf s q = firstAppear (switchSpeciesSeq (logLines log) q) := by
    rw [hteam]
    rfl
  refine ⟨?_, hteam', rfl, ?_⟩
  · rw [hteam]
    exact nodup_foldl_pushNew _ [] List.nodup_nil
  · unfold leadOf
    rw [hteam']
    rw [show (firstAppear (switchSpeciesSeq (logLines log) q)).head? = none ↔
        firstAppear (switchSpeciesSeq (logLines log) q) = []
      from List.head?_eq_none_iff]
    exact firstAppear_eq_nil_iff _

/-- Witness for C7 on a log with a repeated species and nickname. -/
theorem C7_roster_lead_witness :
    processLog "|switch|p1a: A|Mew,|100/100\n|switch|p1a: B|Ditto,|90/100\n|switch|p1a: A|Mew,|80/100"
      = .ok (runState "|switch|p1a: A|Mew,|100/100\n|switch|p1a: B|Ditto,|90/100\n|switch|p1a: A|Mew,|80/100") ∧
    ((teamOrderOf (runState "|switch|p1a: A|Mew,|100/100\n|switch|p1a: B|Ditto,|90/100\n|switch|p1a: A|Mew,|80/100") "p1").Nodup ∧
      teamOrderOf (runState "|switch|p1a: A|Mew,|100/100\n|switch|p1a: B|Ditto,|90/100\n|switch|p1a: A|Mew,|80/100") "p1"
        = firstAppear (switchSpeciesSeq (logLines "|switch|p1a: A|Mew,|100/100\n|switch|p1a: B|Ditto,|90/100\n|switch|p1a: A|Mew,|80/100") "p1") ∧
      leadOf (runState "|switch|p1a: A|Mew,|100/100\n|switch|p1a: B|Ditto,|90/100\n|switch|p1a: A|Mew,|80/100") "p1"
        = (teamOrderOf (runState "|switch|p1a: A|Mew,|100/100\n|switch|p1a: B|Ditto,|90/100\n|switch|p1a: A|Mew,|80/100") "p1").head? ∧
      (leadOf (runState "|switch|p1a: A|Mew,|100/100\n|switch|p1a: B|Ditto,|90/100\n|switch|p1a: A|Mew,|80/100") "p1" = none ↔
        switchSpeciesSeq (logLines "|switch|p1a: A|Mew,|100/100\n|switch|p1a: B|Ditto,|90/100\n|switch|p1a: A|Mew,|80/100") "p1" = [])) :=
  by
  refine ⟨rfl, ?_⟩
  exact C7_roster_lead "|switch|p1a: A|Mew,|100/100\n|switch|p1a: B|Ditto,|90/100\n|switch|p1a: A|Mew,|80/100" (runState "|switch|p1a: A|Mew,|100/100\n|switch|p1a: B|Ditto,|90/100\n|switch|p1a: A|Mew,|80/100") rfl "p1"

/-- Counterexample for C8: the source does not stop at a `win` event and
credits one tick per `win` line, so a log with a switch and two `win`
lines gives the side 2 turns-on-field while containing 0 turn lines,
violating the claimed bound of turn lines plus one. -/
theorem C8_counterexample :
    processLog "|switch|p1a: A|Mew,|100/100\n|win|x\n|win|x"
      = .ok (runState "|switch|p1a: A|Mew,|100/100\n|win|x\n|win|x") ∧
    sideTurns (runState "|switch|p1a: A|Mew,|100/100\n|win|x\n|win|x") "p1" = 2 ∧
    turnLineCount (logLines "|switch|p1a: A|Mew,|100/100\n|win|x\n|win|x") = 0 ∧
    ¬(2 ≤ 0 + 1) :=
  ⟨rfl, rfl, rfl, by decide⟩

/-- Claim C8 as amended (the bound must count `win` lines as well, since
the loop does not stop at a win event): each `turn` or `win` line
increments the turns-on-field of each side's active combatant by exactly
one; a side's turns-on-field sum after a successful run is at most the
number of `turn` lines plus the number of `win` lines; and every
combatant's turns-on-field is monotone as more lines are processed. -/
theorem C8_turn_accounting :
    (∀ (s s' : ParseState) (parts : List String),
      (dKeys s.active_pokemon).Nodup →
      dispatch s parts = .ok s' →
      isTick parts = true →
      ∀ q a, dFind? s.active_pokemon q = some a →
        turnsAt s' q a.nickname = turnsAt s q a.nickname + 1) ∧
    (∀ (log : String) (s : ParseState), processLog log = .ok s →
      ∀ q, sideTurns s q ≤ turnLineCount (logLines log) + winLineCount (logLines log)) ∧
    (∀ (l1 l2 : List String) (s1 s2 : ParseState),
      processLines initState l1 = .ok s1 →
      processLines initState (l1 ++ l2) = .ok s2 →
      ∀ q m, turnsAt s1 q m ≤ turnsAt s2 q m) := by
  refine ⟨?_, ?_, ?_⟩
  · intro s s' parts hnd h htick q a hfind
    exact (dispatch_facts hnd h).2.2.2.2.1 htick q a hfind
  · intro log s h q
    have hf := processLines_facts
      (show (dKeys initState.active_pokemon).Nodup from List.nodup_nil) h
    have hb := hf.2.2.2.1 q
    have hzero : sideTurns initState q = 0 := rfl
    rw [hzero, Nat.zero_add, tickLineCount_eq] at hb
    exact hb
  · intro l1 l2 s1 s2 h1 h2 q m
    obtain ⟨s1', h1', h2'⟩ := processLines_append h2
    have hs : s1' = s1 := by
      rw [h1'] at h1
      exact Except.ok.inj h1
    rw [hs] at h2'
    have hnd1 : (dKeys s1.active_pokemon).Nodup :=
      (processLines_facts
        (show (dKeys initState.active_pokemon).Nodup from List.nodup_nil) h1).1
    exact (processLines_facts hnd1 h2').2.2.1 q m

/-- Witness for C8 at a concrete turn line and a concrete two-line log. -/
theorem C8_turn_accounting_witness :
    (dKeys (runState "|switch|p1a: A|Mew,|100/100").active_pokemon).Nodup ∧
    dispatch (runState "|switch|p1a: A|Mew,|100/100") ["", "turn", "1"]
      = .ok (runState "|switch|p1a: A|Mew,|100/100\n|turn|1") ∧
    isTick ["", "turn", "1"] = true ∧
    dFind? (runState "|switch|p1a: A|Mew,|100/100").active_pokemon "p1" = some ⟨"A", 100⟩ ∧
    turnsAt (runState "|switch|p1a: A|Mew,|100/100\n|turn|1") "p1" "A"
      = turnsAt (runState "|switch|p1a: A|Mew,|100/100") "p1" "A" + 1 ∧
    processLog "|switch|p1a: A|Mew,|100/100\n|turn|1"
      = .ok (runState "|switch|p1a: A|Mew,|100/100\n|turn|1") ∧
    sideTurns (runState "|switch|p1a: A|Mew,|100/100\n|turn|1") "p1"
      ≤ turnLineCount (logLines "|switch|p1a: A|Mew,|100/100\n|turn|1")
        + winLineCount (logLines "|switch|p1a: A|Mew,|100/100\n|turn|1") :=
  by
  refine ⟨by decide, rfl, rfl, rfl, ?_, rfl, ?_⟩
  · exact C8_turn_accounting.1 (runState "|switch|p1a: A|Mew,|100/100") (runState "|switch|p1a: A|Mew,|100/100\n|turn|1")
      ["", "turn", "1"] (by decide) rfl rfl "p1" ⟨"A", 100⟩ rfl
  · exact C8_turn_accounting.2.1 "|switch|p1a: A|Mew,|100/100\n|turn|1" (runState "|switch|p1a: A|Mew,|100/100\n|turn|1") rfl "p1"

/-- Counterexample for C9: a `-damage` line whose victim header resolves
to a side other than `p1`/`p2` is attributed to attacker `p2`, so `p2`'s
damage-dealt sum is 50 while `p1`'s damage-received sum is 0, although no
negative delta (let alone a clamped one) occurred. -/
theorem C9_counterexample :
    processLog "|switch|p2a: B|Mu,|100/100\n|switch|zz: F|Sp,|100/100\n|-damage|zz: F|50/100"
      = .ok (runState "|switch|p2a: B|Mu,|100/100\n|switch|zz: F|Sp,|100/100\n|-damage|zz: F|50/100") ∧
    sideDealt (runState "|switch|p2a: B|Mu,|100/100\n|switch|zz: F|Sp,|100/100\n|-damage|zz: F|50/100") "p2" = 50 ∧
    sideRecv (runState "|switch|p2a: B|Mu,|100/100\n|switch|zz: F|Sp,|100/100\n|-damage|zz: F|50/100") "p1" = 0 ∧
    (50 : Int) ≠ 0 :=
  ⟨rfl, rfl, rfl, by decide⟩

/-- Claim C9 as amended (restricted to logs whose `-damage` victims all
resolve to the two real sides; the source never clamps, and each 4-part
damage line adds the same delta to the attacker side's dealt sum and the
victim side's received sum): after a successful run, each side's dealt
sum equals the opposing side's received sum. -/
theorem C9_damage_symmetry :
    ∀ (log : String) (s : ParseState), processLog log = .ok s →
      (∀ line ∈ logLines log, damageSidesOK line = true) →
      sideDealt s "p1" = sideRecv s "p2" ∧ sideDealt s "p2" = sideRecv s "p1" := by
  intro log s h hside
  have hf := (processLines_facts
    (show (dKeys initState.active_pokemon).Nodup from List.nodup_nil) h).2.2.2.2 hside
  have h1 : sideDealt s "p1" - sideRecv s "p2" = 0 := by
    rw [hf.1]
    rfl
  have h2 : sideDealt s "p2" - sideRecv s "p1" = 0 := by
    rw [hf.2]
    rfl
  exact ⟨sub_eq_zero.mp h1, sub_eq_zero.mp h2⟩

/-- Witness for C9 on a log with a properly attributed damage event. -/
theorem C9_damage_symmetry_witness :
    processLog "|switch|p1a: A|Mew,|100/100\n|switch|p2a: B|Mu,|100/100\n|-damage|p1a: A|60/100"
      = .ok (runState "|switch|p1a: A|Mew,|100/100\n|switch|p2a: B|Mu,|100/100\n|-damage|p1a: A|60/100") ∧
    (∀ line ∈ logLines "|switch|p1a: A|Mew,|100/100\n|switch|p2a: B|Mu,|100/100\n|-damage|p1a: A|60/100",
      damageSidesOK line = true) ∧
    (sideDealt (runState "|switch|p1a: A|Mew,|100/100\n|switch|p2a: B|Mu,|100/100\n|-damage|p1a: A|60/100") "p1"
      = sideRecv (runState "|switch|p1a: A|Mew,|100/100\n|switch|p2a: B|Mu,|100/100\n|-damage|p1a: A|60/100") "p2" ∧
     sideDealt (runState "|switch|p1a: A|Mew,|100/100\n|switch|p2a: B|Mu,|100/100\n|-damage|p1a: A|60/100") "p2"
      = sideRecv (runState "|switch|p1a: A|Mew,|100/100\n|switch|p2a: B|Mu,|100/100\n|-damage|p1a: A|60/100") "p1") :=
  by
  refine ⟨rfl, by decide, ?_⟩
  exact C9_damage_symmetry "|switch|p1a: A|Mew,|100/100\n|switch|p2a: B|Mu,|100/100\n|-damage|p1a: A|60/100" (runState "|switch|p1a: A|Mew,|100/100\n|switch|p2a: B|Mu,|100/100\n|-damage|p1a: A|60/100") rfl (by decide)

/-! ### Dispatch walk helpers and claims C2, C4 -/

theorem length_ne_one_of_tag {parts : List String} {t : String}
    (htag : tagOf parts = t) (hne : t ≠ "") : parts.length ≠ 1 :=
  fun hl => hne (htag.symm.trans (tagOf_of_length_one hl))

theorem dispatch_eq_teamsizeBranch {s : ParseState} {parts : List String}
    (hlen : parts.length ≠ 1) (htag : tagOf parts = "teamsize") :
    dispatch s parts = teamsizeBranch s parts := by
  unfold dispatch
  rw [if_neg hlen, if_neg (show ¬tagOf parts = "player" by rw [htag]; decide), if_pos htag]

theorem dispatch_eq_statusBranch {s : ParseState} {parts : List String}
    (hlen : parts.length ≠ 1) (htag : tagOf parts = "-status") :
    dispatch s parts = statusBranch s parts := by
  unfold dispatch
  rw [if_neg hlen,
    if_neg (show ¬tagOf parts = "player" by rw [htag]; decide),
    if_neg (show ¬tagOf parts = "teamsize" by rw [htag]; decide),
    if_neg (show ¬(tagOf parts = "switch" ∨ tagOf parts = "drag") by rw [htag]; decide),
    if_neg (show ¬tagOf parts = "turn" by rw [htag]; decide),
    if_neg (show ¬tagOf parts = "win" by rw [htag]; decide),
    if_neg (show ¬tagOf parts = "move" by rw [htag]; decide),
    if_pos htag]

theorem dispatch_eq_damageBranch {s : ParseState} {parts : List String}
    (hlen : parts.length ≠ 1) (htag : tagOf parts = "-damage") :
    dispatch s parts = damageBranch s parts := by
  unfold dispatch
  rw [if_neg hlen,
    if_neg (show ¬tagOf parts = "player" by rw [htag]; decide),
    if_neg (show ¬tagOf parts = "teamsize" by rw [htag]; decide),
    if_neg (show ¬(tagOf parts = "switch" ∨ tagOf parts = "drag") by rw [htag]; decide),
    if_neg (show ¬tagOf parts = "turn" by rw [htag]; decide),
    if_neg (show ¬tagOf parts = "win" by rw [htag]; decide),
    if_neg (show ¬tagOf parts = "move" by rw [htag]; decide),
    if_neg (show ¬tagOf parts = "-status" by rw [htag]; decide),
    if_pos htag]

theorem dispatch_unrecognized {s : ParseState} {parts : List String}
    (h : tagOf parts ∉ (["player", "teamsize", "switch", "drag", "turn", "win",
      "move", "-status", "-damage", "-heal", "faint", "-sidestart", "-sideend"] :
        List String)) :
    dispatch s parts = .ok s := by
  by_cases hlen : parts.length = 1
  · unfold dispatch
    rw [if_pos hlen]
  · unfold dispatch
    rw [if_neg hlen,
      if_neg (show ¬tagOf parts = "player" from fun hh => h (by rw [hh]; decide)),
      if_neg (show ¬tagOf parts = "teamsize" from fun hh => h (by rw [hh]; decide)),
      if_neg (show ¬(tagOf parts = "switch" ∨ tagOf parts = "drag") by
        intro hh
        rcases hh with hh | hh
        · exact h (by rw [hh]; decide)
        · exact h (by rw [hh]; decide)),
      if_neg (show ¬tagOf parts = "turn" from fun hh => h (by rw [hh]; decide)),
      if_neg (show ¬tagOf parts = "win" from fun hh => h (by rw [hh]; decide)),
      if_neg (show ¬tagOf parts = "move" from fun hh => h (by rw [hh]; decide)),
      if_neg (show ¬tagOf parts = "-status" from fun hh => h (by rw [hh]; decide)),
      if_neg (show ¬tagOf parts = "-damage" from fun hh => h (by rw [hh]; decide)),
      if_neg (show ¬tagOf parts = "-heal" from fun hh => h (by rw [hh]; decide)),
      if_neg (show ¬tagOf parts = "faint" from fun hh => h (by rw [hh]; decide)),
      if_neg (show ¬tagOf parts = "-sidestart" from fun hh => h (by rw [hh]; decide)),
      if_neg (show ¬tagOf parts = "-sideend" from fun hh => h (by rw [hh]; decide))]

/-- Counterexample for C2: after a second `switch` registering nickname
`X` with a different species, the stored binding is the second species,
not the first. -/
theorem C2_counterexample :
    (pokeVal (runState "|switch|p1a: X|Mew,|100/100") "p1" "X").species = some "Mew" ∧
    (pokeVal (runState "|switch|p1a: X|Mew,|100/100\n|switch|p1a: X|Ditto,|100/100")
      "p1" "X").species = some "Ditto" ∧
    (some "Ditto" : Option String) ≠ some "Mew" :=
  ⟨rfl, rfl, by decide⟩

/-- Claim C2 as amended: every successful `switch`/`drag` registration
sets the nickname's species binding to the event's species — a later
registration of the same nickname with a different species overwrites the
earlier binding (last write wins) rather than being ignored. -/
theorem C2_rebinding :
    ∀ (s s' : ParseState) (parts : List String) (pid sp : String),
      (tagOf parts = "switch" ∨ tagOf parts = "drag") →
      switchBranch s parts = .ok s' →
      switchData? parts = some (pid, sp) →
      ∃ nick, (pokeVal s' pid nick).species = some sp := by
  intro s s' parts pid sp htag h hdata
  obtain ⟨pid', nick, sp', hp, hdata', hps, ha, hteam⟩ := switchBranch_ok htag h
  rw [hdata] at hdata'
  have hpair : (pid, sp) = (pid', sp') := Option.some.inj hdata'
  injection hpair with h1 h2
  subst h1
  subst h2
  refine ⟨nick, ?_⟩
  show (pval s'.pokemon_stats pid nick).species = some sp
  rw [hps, pval_pstatsModify, if_pos ⟨rfl, rfl⟩]
  rfl

/-- Witness for C2: the second registration of nickname `X` rebinds it to
`Ditto`. -/
theorem C2_rebinding_witness :
    (tagOf ["", "switch", "p1a: X", "Ditto,", "100/100"] = "switch" ∨
      tagOf ["", "switch", "p1a: X", "Ditto,", "100/100"] = "drag") ∧
    switchBranch (runState "|switch|p1a: X|Mew,|100/100")
        ["", "switch", "p1a: X", "Ditto,", "100/100"]
      = .ok (runState "|switch|p1a: X|Mew,|100/100\n|switch|p1a: X|Ditto,|100/100") ∧
    switchData? ["", "switch", "p1a: X", "Ditto,", "100/100"] = some ("p1", "Ditto") ∧
    (∃ nick, (pokeVal (runState "|switch|p1a: X|Mew,|100/100\n|switch|p1a: X|Ditto,|100/100")
      "p1" nick).species = some "Ditto") := by
  refine ⟨Or.inl rfl, rfl, rfl, ?_⟩
  exact C2_rebinding (runState "|switch|p1a: X|Mew,|100/100")
    (runState "|switch|p1a: X|Mew,|100/100\n|switch|p1a: X|Ditto,|100/100")
    ["", "switch", "p1a: X", "Ditto,", "100/100"] "p1" "Ditto" (Or.inl rfl) rfl rfl

/-- Counterexample for C4: a `teamsize` line with an unparseable count
aborts the whole parse with a `ValueError` instead of being skipped; the
following well-formed line is never processed. -/
theorem C4_counterexample :
    processLog "|teamsize|p1|abc\n|switch|p1a: A|Mew,|100/100" = .error .valueError := rfl

/-- Claim C4 as amended: single-field lines and lines with an
unrecognized tag are skipped with no state change and processing
continues; but a recognized-tag line with an unparseable numeric field
(here: `teamsize`) raises an uncaught error that aborts interpretation of
the whole stream. -/
theorem C4_malformed_lines :
    (∀ (s : ParseState) (parts : List String),
      parts.length = 1 → dispatch s parts = .ok s) ∧
    (∀ (s : ParseState) (parts : List String),
      tagOf parts ∉ (["player", "teamsize", "switch", "drag", "turn", "win",
        "move", "-status", "-damage", "-heal", "faint", "-sidestart", "-sideend"] :
          List String) →
      dispatch s parts = .ok s) ∧
    (∀ (s : ParseState) (line : String) (rest : List String) (parts : List String)
        (pid raw : String) (e : PyErr),
      pySplit '|' (pyStrip line) = parts →
      tagOf parts = "teamsize" →
      pyIdx parts 2 = .ok pid →
      pyIdx parts 3 = .ok raw →
      pyInt raw = .error e →
      processLines s (line :: rest) = .error e) := by
  refine ⟨?_, ?_, ?_⟩
  · intro s parts h
    unfold dispatch
    rw [if_pos h]
  · intro s parts h
    exact dispatch_unrecognized h
  · intro s line rest parts pid raw e hsplit htag h2 h3 hint
    have hline : processLine s line = .error e := by
      unfold processLine
      rw [hsplit,
        dispatch_eq_teamsizeBranch (length_ne_one_of_tag htag (by decide)) htag]
      unfold teamsizeBranch
      simp only [h2, exbind_okE, h3, hint, exbind_errE]
    unfold processLines
    rw [hline]

/-- Witness for C4 at a blank line, a `gibberish` line and a bad
`teamsize` line. -/
theorem C4_malformed_lines_witness :
    ((["x"] : List String).length = 1 ∧
      dispatch initState ["x"] = .ok initState) ∧
    (tagOf ["", "gibberish", "y"] ∉ (["player", "teamsize", "switch", "drag", "turn",
        "win", "move", "-status", "-damage", "-heal", "faint", "-sidestart",
        "-sideend"] : List String) ∧
      dispatch initState ["", "gibberish", "y"] = .ok initState) ∧
    (pySplit '|' (pyStrip "|teamsize|p1|abc") = ["", "teamsize", "p1", "abc"] ∧
      pyInt "abc" = .error .valueError ∧
      processLines initState ["|teamsize|p1|abc", "|switch|p1a: A|Mew,|100/100"]
        = .error .valueError) := by
  refine ⟨⟨rfl, ?_⟩, ⟨by decide, ?_⟩, rfl, rfl, ?_⟩
  · exact C4_malformed_lines.1 initState ["x"] rfl
  · exact C4_malformed_lines.2.1 initState ["", "gibberish", "y"] (by decide)
  · exact C4_malformed_lines.2.2 initState "|teamsize|p1|abc"
      ["|switch|p1a: A|Mew,|100/100"] ["", "teamsize", "p1", "abc"] "p1" "abc"
      .valueError rfl rfl rfl rfl rfl

/-! ### Cell projection facts and claims C6, C1 -/

theorem addSD_status_dealt (p : PokeStats) : (addSD p).status_dealt = p.status_dealt + 1 := rfl

theorem addSD_status_received (p : PokeStats) : (addSD p).status_received = p.status_received := rfl

theorem addSR_status_received (p : PokeStats) :
    (addSR p).status_received = p.status_received + 1 := rfl

theorem addSR_status_dealt (p : PokeStats) : (addSR p).status_dealt = p.status_dealt := rfl

theorem addKoRecv_received (p : PokeStats) : (addKoRecv p).n_ko_received = p.n_ko_received + 1 := rfl

theorem addKoRecv_dealt (p : PokeStats) : (addKoRecv p).n_ko_dealt = p.n_ko_dealt := rfl

theorem addKoDealt_ko (p : PokeStats) : (addKoDealt p).n_ko_dealt = p.n_ko_dealt + 1 := rfl

theorem addDealt_dd (δ : Int) (p : PokeStats) :
    (addDealt δ p).damage_dealt = p.damage_dealt + δ := rfl

theorem addRecv_dr (δ : Int) (p : PokeStats) :
    (addRecv δ p).damage_received = p.damage_received + δ := rfl

/-- Claim C6 (confirmed): a `-status` line with exactly the two-field
victim-only payload, processed while the opposing side has an active
combatant, increments that combatant's `status_dealt` and the victim's
`status_received` by one and changes nothing else; a `-status` line of
any other arity leaves the state completely unchanged. -/
theorem C6_status_attribution :
    (∀ (s s' : ParseState) (hdr stName pid nick : String) (att : Active),
      parse_log_header hdr = .ok (pid, nick) →
      dFind? s.active_pokemon (oppSide pid) = some att →
      dispatch s ["", "-status", hdr, stName] = .ok s' →
      (pokeVal s' (oppSide pid) att.nickname).status_dealt
        = (pokeVal s (oppSide pid) att.nickname).status_dealt + 1 ∧
      (pokeVal s' pid nick).status_received
        = (pokeVal s pid nick).status_received + 1 ∧
      (∀ q m, ¬(q = oppSide pid ∧ m = att.nickname) →
        (pokeVal s' q m).status_dealt = (pokeVal s q m).status_dealt) ∧
      (∀ q m, ¬(q = pid ∧ m = nick) →
        (pokeVal s' q m).status_received = (pokeVal s q m).status_received) ∧
      s'.player_stats = s.player_stats ∧ s'.active_pokemon = s.active_pokemon ∧
      s'.winner = s.winner ∧ s'.n_turns = s.n_turns ∧ s'.new_hp = s.new_hp) ∧
    (∀ (s : ParseState) (parts : List String),
      tagOf parts = "-status" → parts.length ≠ 4 → dispatch s parts = .ok s) := by
  constructor
  · intro s s' hdr stName pid nick att hhdr hatt h
    have h' : statusBranch s ["", "-status", hdr, stName] = .ok s' := h
    unfold statusBranch at h'
    rw [if_pos (show (["", "-status", hdr, stName] : List String).length = 4 from rfl)] at h'
    obtain ⟨hdr', hh, h'⟩ := exBind_ok h'
    have hhdr' : hdr = hdr' := Except.ok.inj hh
    subst hhdr'
    obtain ⟨pn, hpn, h'⟩ := exBind_ok h'
    have hpn' : pn = (pid, nick) := by
      rw [hhdr] at hpn
      exact (Except.ok.inj hpn).symm
    subst hpn'
    try dsimp only at h'
    obtain ⟨att', hatt', h'⟩ := exBind_ok h'
    have hatt2 : att' = att := by
      unfold pyDictGet at hatt'
      rw [hatt] at hatt'
      exact (Except.ok.inj hatt').symm
    rw [hatt2] at h'
    clear hatt2 hatt'
    obtain ⟨st, hst, h'⟩ := exBind_ok h'
    try dsimp only at h'
    have hs' : s' = _ := (exPure_ok h').symm
    subst hs'
    refine ⟨?_, ?_, ?_, ?_, rfl, rfl, rfl, rfl, rfl⟩
    · show (pval (pstatsModify (pstatsModify s.pokemon_stats (oppSide pid)
          att.nickname addSD) pid nick addSR) (oppSide pid) att.nickname).status_dealt
        = (pval s.pokemon_stats (oppSide pid) att.nickname).status_dealt + 1
      rw [pval_pstatsModify, if_neg (fun hc => oppSide_ne pid hc.1),
        pval_pstatsModify, if_pos ⟨rfl, rfl⟩, addSD_status_dealt]
    · show (pval (pstatsModify (pstatsModify s.pokemon_stats (oppSide pid)
          att.nickname addSD) pid nick addSR) pid nick).status_received
        = (pval s.pokemon_stats pid nick).status_received + 1
      rw [pval_pstatsModify, if_pos ⟨rfl, rfl⟩, addSR_status_received,
        pval_pstatsModify, if_neg (fun hc => oppSide_ne pid hc.1.symm)]
    · intro q m hqm
      show (pval (pstatsModify (pstatsModify s.pokemon_stats (oppSide pid)
          att.nickname addSD) pid nick addSR) q m).status_dealt
        = (pval s.pokemon_stats q m).status_dealt
      by_cases h2 : q = pid ∧ m = nick
      · rw [h2.1, h2.2, pval_pstatsModify, if_pos ⟨rfl, rfl⟩, addSR_status_dealt,
          pval_pstatsModify, if_neg (fun hc => oppSide_ne pid hc.1.symm)]
      · rw [pval_pstatsModify, if_neg h2, pval_pstatsModify, if_neg hqm]
    · intro q m hqm
      show (pval (pstatsModify (pstatsModify s.pokemon_stats (oppSide pid)
          att.nickname addSD) pid nick addSR) q m).status_received
        = (pval s.pokemon_stats q m).status_received
      by_cases h2 : q = oppSide pid ∧ m = att.nickname
      · rw [h2.1, h2.2, pval_pstatsModify, if_neg (fun hc => oppSide_ne pid hc.1),
          pval_pstatsModify, if_pos ⟨rfl, rfl⟩, addSD_status_received]
      · rw [pval_pstatsModify, if_neg hqm, pval_pstatsModify, if_neg h2]
  · intro s parts htag hlen4
    by_cases hlen : parts.length = 1
    · unfold dispatch
      rw [if_pos hlen]
    · rw [dispatch_eq_statusBranch hlen htag]
      unfold statusBranch
      rw [if_neg hlen4]
      rfl

/-- Witness for C6: on a concrete log where both sides have an active
combatant, the status line `|-status|p1a: A|par` bumps B's `status_dealt`
and A's `status_received`, and a five-part status line is a no-op. -/
theorem C6_status_attribution_witness :
    (pokeVal (runState "|switch|p1a: A|Mew,|60/100\n|switch|p2a: B|Mu,|100/100\n|-status|p1a: A|par")
        "p2" "B").status_dealt
      = (pokeVal (runState "|switch|p1a: A|Mew,|60/100\n|switch|p2a: B|Mu,|100/100")
        "p2" "B").status_dealt + 1 ∧
    (pokeVal (runState "|switch|p1a: A|Mew,|60/100\n|switch|p2a: B|Mu,|100/100\n|-status|p1a: A|par")
        "p1" "A").status_received
      = (pokeVal (runState "|switch|p1a: A|Mew,|60/100\n|switch|p2a: B|Mu,|100/100")
        "p1" "A").status_received + 1 ∧
    dispatch (runState "|switch|p1a: A|Mew,|60/100\n|switch|p2a: B|Mu,|100/100")
        ["", "-status", "p1a: A", "par", "[from] item"]
      = .ok (runState "|switch|p1a: A|Mew,|60/100\n|switch|p2a: B|Mu,|100/100") := by
  have h1 := C6_status_attribution.1
    (runState "|switch|p1a: A|Mew,|60/100\n|switch|p2a: B|Mu,|100/100")
    (runState "|switch|p1a: A|Mew,|60/100\n|switch|p2a: B|Mu,|100/100\n|-status|p1a: A|par")
    "p1a: A" "par" "p1" "A" ⟨"B", 100⟩ rfl rfl rfl
  have h2 := C6_status_attribution.2
    (runState "|switch|p1a: A|Mew,|60/100\n|switch|p2a: B|Mu,|100/100")
    ["", "-status", "p1a: A", "par", "[from] item"] rfl (by decide)
  exact ⟨h1.1, h1.2.1, h2⟩

/-- Counterexample for C1: a `-status` line whose attributed attacker side
(`p2`) has no active combatant aborts the whole parse with a `KeyError`;
the following well-formed `turn` line is never processed. -/
theorem C1_counterexample :
    processLog "|switch|p1a: A|Mew,|100/100\n|-status|p1a: A|par\n|turn|1"
      = .error .keyError := rfl

/-- Claim C1 as amended: an event whose attribution names a side with no
recorded active combatant is not skipped; the plain-dict lookup raises a
`KeyError` (`-status` attacker, `-damage` attacker, `-damage` victim), and
an error on any line aborts interpretation of the remaining stream. -/
theorem C1_missing_attribution :
    (∀ (s : ParseState) (hdr stName pid nick : String),
      parse_log_header hdr = .ok (pid, nick) →
      dFind? s.active_pokemon (oppSide pid) = none →
      dispatch s ["", "-status", hdr, stName] = .error .keyError) ∧
    (∀ (s : ParseState) (parts : List String) (hdr pid nick : String),
      tagOf parts = "-damage" →
      pyIdx parts 2 = .ok hdr →
      parse_log_header hdr = .ok (pid, nick) →
      dFind? s.active_pokemon (oppSide pid) = none →
      dispatch s parts = .error .keyError) ∧
    (∀ (s : ParseState) (parts : List String) (hdr pid nick : String) (att : Active),
      tagOf parts = "-damage" →
      pyIdx parts 2 = .ok hdr →
      parse_log_header hdr = .ok (pid, nick) →
      dFind? s.active_pokemon (oppSide pid) = some att →
      dFind? s.active_pokemon pid = none →
      dispatch s parts = .error .keyError) ∧
    (∀ (s : ParseState) (line : String) (rest : List String) (e : PyErr),
      processLine s line = .error e →
      processLines s (line :: rest) = .error e) := by
  refine ⟨?_, ?_, ?_, ?_⟩
  · intro s hdr stName pid nick hhdr hnone
    rw [dispatch_eq_statusBranch
      (show (["", "-status", hdr, stName] : List String).length ≠ 1 from
        (by decide : (4 : Nat) ≠ 1))
      (show tagOf ["", "-status", hdr, stName] = "-status" from rfl)]
    have hget : pyDictGet s.active_pokemon (oppSide pid) = .error .keyError := by
      unfold pyDictGet
      rw [hnone]
    unfold statusBranch
    rw [if_pos (show (["", "-status", hdr, stName] : List String).length = 4 from rfl)]
    simp only [show pyIdx (["", "-status", hdr, stName] : List String) 2 = .ok hdr from rfl,
      exbind_okE, hhdr, hget, exbind_errE]
  · intro s parts hdr pid nick htag h2 hhdr hnone
    rw [dispatch_eq_damageBranch (length_ne_one_of_tag htag (by decide)) htag]
    have hget : pyDictGet s.active_pokemon (oppSide pid) = .error .keyError := by
      unfold pyDictGet
      rw [hnone]
    unfold damageBranch
    simp only [h2, exbind_okE, hhdr, hget, exbind_errE]
  · intro s parts hdr pid nick att htag h2 hhdr hatt hnone
    rw [dispatch_eq_damageBranch (length_ne_one_of_tag htag (by decide)) htag]
    have hgetA : pyDictGet s.active_pokemon (oppSide pid) = .ok att := by
      unfold pyDictGet
      rw [hatt]
    have hgetV : pyDictGet s.active_pokemon pid = .error .keyError := by
      unfold pyDictGet
      rw [hnone]
    unfold damageBranch
    simp only [h2, exbind_okE, hhdr, hgetA, hgetV, exbind_errE]
  · intro s line rest e h
    unfold processLines
    rw [h]

/-- Witness for C1 on concrete states: the attacker-missing status line,
the attacker-missing and victim-missing damage lines each raise
`KeyError`, and the erroring line aborts the enclosing fold. -/
theorem C1_missing_attribution_witness :
    (parse_log_header "p1a: A" = .ok ("p1", "A") ∧
      dFind? (runState "|switch|p1a: A|Mew,|100/100").active_pokemon "p2" = none ∧
      dispatch (runState "|switch|p1a: A|Mew,|100/100") ["", "-status", "p1a: A", "par"]
        = .error .keyError) ∧
    dispatch (runState "|switch|p1a: A|Mew,|100/100") ["", "-damage", "p1a: A", "50/100"]
      = .error .keyError ∧
    (dFind? (runState "|switch|p2a: B|Mu,|100/100").active_pokemon "p2"
        = some ⟨"B", 100⟩ ∧
      dispatch (runState "|switch|p2a: B|Mu,|100/100") ["", "-damage", "p1a: A", "50/100"]
        = .error .keyError) ∧
    processLines (runState "|switch|p1a: A|Mew,|100/100")
        ["|-status|p1a: A|par", "|turn|1"] = .error .keyError := by
  refine ⟨⟨rfl, rfl, ?_⟩, ?_, ⟨rfl, ?_⟩, ?_⟩
  · exact C1_missing_attribution.1 (runState "|switch|p1a: A|Mew,|100/100")
      "p1a: A" "par" "p1" "A" rfl rfl
  · exact C1_missing_attribution.2.1 (runState "|switch|p1a: A|Mew,|100/100")
      ["", "-damage", "p1a: A", "50/100"] "p1a: A" "p1" "A" rfl rfl rfl rfl
  · exact C1_missing_attribution.2.2.1 (runState "|switch|p2a: B|Mu,|100/100")
      ["", "-damage", "p1a: A", "50/100"] "p1a: A" "p1" "A" ⟨"B", 100⟩ rfl rfl rfl rfl rfl
  · exact C1_missing_attribution.2.2.2 (runState "|switch|p1a: A|Mew,|100/100")
      "|-status|p1a: A|par" ["|turn|1"] .keyError rfl

theorem expure_bindE {α β : Type} (a : α) (f : α → Except PyErr β) :
    (pure a : Except PyErr α) >>= f = f a := rfl

theorem addDealt_ko (d : Int) (p : PokeStats) : (addDealt d p).n_ko_dealt = p.n_ko_dealt := rfl

theorem addKoDealt_dd (p : PokeStats) : (addKoDealt p).damage_dealt = p.damage_dealt := rfl

theorem dispatch_eq_faintBranch {s : ParseState} {parts : List String}
    (hlen : parts.length ≠ 1) (htag : tagOf parts = "faint") :
    dispatch s parts = faintBranch s parts := by
  unfold dispatch
  rw [if_neg hlen,
    if_neg (show ¬tagOf parts = "player" by rw [htag]; decide),
    if_neg (show ¬tagOf parts = "teamsize" by rw [htag]; decide),
    if_neg (show ¬(tagOf parts = "switch" ∨ tagOf parts = "drag") by rw [htag]; decide),
    if_neg (show ¬tagOf parts = "turn" by rw [htag]; decide),
    if_neg (show ¬tagOf parts = "win" by rw [htag]; decide),
    if_neg (show ¬tagOf parts = "move" by rw [htag]; decide),
    if_neg (show ¬tagOf parts = "-status" by rw [htag]; decide),
    if_neg (show ¬tagOf parts = "-damage" by rw [htag]; decide),
    if_neg (show ¬tagOf parts = "-heal" by rw [htag]; decide),
    if_pos htag]

/-- Claim C5 (confirmed): a `faint` line increments only the fainted
combatant's `n_ko_received` and no cell's `n_ko_dealt`; a 4-part `-damage`
line whose payload is the `0 fnt` form increments the attacker's
`n_ko_dealt`, adds `old_hp - 0` to the attacker's `damage_dealt` and the
victim's `damage_received`, and records the victim's health as `0` in the
same step. -/
theorem C5_faint_and_ko :
    (∀ (s : ParseState) (hdr pid nick : String),
      parse_log_header hdr = .ok (pid, nick) →
      dispatch s ["", "faint", hdr] = .ok
        { s with pokemon_stats := pstatsModify s.pokemon_stats pid nick addKoRecv } ∧
      (pval (pstatsModify s.pokemon_stats pid nick addKoRecv) pid nick).n_ko_received
        = (pval s.pokemon_stats pid nick).n_ko_received + 1 ∧
      (∀ q m, (pval (pstatsModify s.pokemon_stats pid nick addKoRecv) q m).n_ko_dealt
        = (pval s.pokemon_stats q m).n_ko_dealt) ∧
      (∀ q m, ¬(q = pid ∧ m = nick) →
        (pval (pstatsModify s.pokemon_stats pid nick addKoRecv) q m).n_ko_received
          = (pval s.pokemon_stats q m).n_ko_received)) ∧
    (∀ (s : ParseState) (hdr f3 pid nick w : String) (att vict : Active),
      parse_log_header hdr = .ok (pid, nick) →
      dFind? s.active_pokemon (oppSide pid) = some att →
      dFind? s.active_pokemon pid = some vict →
      pyIn "fnt" f3 = true →
      pyIn "/" f3 = false →
      pyIdx (pySplitWs f3) 0 = .ok w →
      pyInt w = .ok 0 →
      dispatch s ["", "-damage", hdr, f3] = .ok
        { s with
          pokemon_stats := pstatsModify (pstatsModify (pstatsModify s.pokemon_stats
              (oppSide pid) att.nickname addKoDealt) (oppSide pid) att.nickname
              (addDealt (vict.hp - 0))) pid nick (addRecv (vict.hp - 0)),
          active_pokemon := dSet s.active_pokemon pid ⟨nick, 0⟩,
          new_hp := some 0 } ∧
      (pval (pstatsModify (pstatsModify (pstatsModify s.pokemon_stats
            (oppSide pid) att.nickname addKoDealt) (oppSide pid) att.nickname
            (addDealt (vict.hp - 0))) pid nick (addRecv (vict.hp - 0)))
          (oppSide pid) att.nickname).n_ko_dealt
        = (pval s.pokemon_stats (oppSide pid) att.nickname).n_ko_dealt + 1 ∧
      (pval (pstatsModify (pstatsModify (pstatsModify s.pokemon_stats
            (oppSide pid) att.nickname addKoDealt) (oppSide pid) att.nickname
            (addDealt (vict.hp - 0))) pid nick (addRecv (vict.hp - 0)))
          (oppSide pid) att.nickname).damage_dealt
        = (pval s.pokemon_stats (oppSide pid) att.nickname).damage_dealt + (vict.hp - 0) ∧
      (pval (pstatsModify (pstatsModify (pstatsModify s.pokemon_stats
            (oppSide pid) att.nickname addKoDealt) (oppSide pid) att.nickname
            (addDealt (vict.hp - 0))) pid nick (addRecv (vict.hp - 0)))
          pid nick).damage_received
        = (pval s.pokemon_stats pid nick).damage_received + (vict.hp - 0) ∧
      dFind? (dSet s.active_pokemon pid ⟨nick, 0⟩) pid = some ⟨nick, 0⟩) := by
  constructor
  · intro s hdr pid nick hhdr
    refine ⟨?_, ?_, ?_, ?_⟩
    · rw [dispatch_eq_faintBranch
        (show (["", "faint", hdr] : List String).length ≠ 1 from (by decide : (3 : Nat) ≠ 1))
        (show tagOf ["", "faint", hdr] = "faint" from rfl)]
      unfold faintBranch
      simp only [show pyIdx (["", "faint", hdr] : List String) 2 = .ok hdr from rfl,
        hhdr, exbind_okE]
      rfl
    · rw [pval_pstatsModify, if_pos ⟨rfl, rfl⟩, addKoRecv_received]
    · intro q m
      rw [pval_pstatsModify]
      by_cases h2 : q = pid ∧ m = nick
      · rw [if_pos h2, addKoRecv_dealt, h2.1, h2.2]
      · rw [if_neg h2]
    · intro q m hqm
      rw [pval_pstatsModify, if_neg hqm]
  · intro s hdr f3 pid nick w att vict hhdr hatt hvict hfnt hslash hw hi0
    have hgA : pyDictGet s.active_pokemon (oppSide pid) = .ok att := by
      unfold pyDictGet
      rw [hatt]
    have hgV : pyDictGet s.active_pokemon pid = .ok vict := by
      unfold pyDictGet
      rw [hvict]
    refine ⟨?_, ?_, ?_, ?_, ?_⟩
    · rw [dispatch_eq_damageBranch
        (show (["", "-damage", hdr, f3] : List String).length ≠ 1 from
          (by decide : (4 : Nat) ≠ 1))
        (show tagOf ["", "-damage", hdr, f3] = "-damage" from rfl)]
      unfold damageBranch
      simp only [show pyIdx (["", "-damage", hdr, f3] : List String) 2 = .ok hdr from rfl,
        hhdr, hgA, hgV, exbind_okE]
      rw [if_pos (show (["", "-damage", hdr, f3] : List String).length = 4 from rfl)]
      simp only [show pyIdx (["", "-damage", hdr, f3] : List String) 3 = .ok f3 from rfl,
        exbind_okE]
      rw [if_pos hfnt]
      simp only [hw, hi0, exbind_okE, expure_bindE]
      rw [if_neg (show ¬pyIn "/" f3 = true by rw [hslash]; decide)]
      simp only [expure_bindE, pyLocal, exbind_okE]
      rw [if_neg (show ¬(["", "-damage", hdr, f3] : List String).length = 5 from
        (by decide : ¬(4 : Nat) = 5))]
      simp only [expure_bindE, pyLocal, exbind_okE]
      rfl
    · rw [pval_pstatsModify, if_neg (fun hc => oppSide_ne pid hc.1),
        pval_pstatsModify, if_pos ⟨rfl, rfl⟩, addDealt_ko,
        pval_pstatsModify, if_pos ⟨rfl, rfl⟩, addKoDealt_ko]
    · rw [pval_pstatsModify, if_neg (fun hc => oppSide_ne pid hc.1),
        pval_pstatsModify, if_pos ⟨rfl, rfl⟩, addDealt_dd,
        pval_pstatsModify, if_pos ⟨rfl, rfl⟩, addKoDealt_dd]
    · rw [pval_pstatsModify, if_pos ⟨rfl, rfl⟩, addRecv_dr,
        pval_pstatsModify, if_neg (fun hc => oppSide_ne pid hc.1.symm),
        pval_pstatsModify, if_neg (fun hc => oppSide_ne pid hc.1.symm)]
    · rw [dFind?_dSet, if_pos rfl]

/-- Witness for C5 on a concrete state (A at 30 health on p1, B on p2):
a faint of A bumps only A's `n_ko_received`; the damage line with payload
`0 fnt` bumps B's `n_ko_dealt` and A's `damage_received` by `30 - 0` and
records A's health as `0`. -/
theorem C5_faint_and_ko_witness :
    (pval (pstatsModify (runState "|switch|p1a: A|Mew,|30/100\n|switch|p2a: B|Mu,|100/100").pokemon_stats "p1" "A" addKoRecv)
        "p1" "A").n_ko_received
      = (pval (runState "|switch|p1a: A|Mew,|30/100\n|switch|p2a: B|Mu,|100/100").pokemon_stats "p1" "A").n_ko_received + 1 ∧
    (pval (pstatsModify (runState "|switch|p1a: A|Mew,|30/100\n|switch|p2a: B|Mu,|100/100").pokemon_stats "p1" "A" addKoRecv)
        "p2" "B").n_ko_dealt
      = (pval (runState "|switch|p1a: A|Mew,|30/100\n|switch|p2a: B|Mu,|100/100").pokemon_stats "p2" "B").n_ko_dealt ∧
    pyIn "fnt" "0 fnt" = true ∧
    pyIn "/" "0 fnt" = false ∧
    (pval (pstatsModify (pstatsModify (pstatsModify (runState "|switch|p1a: A|Mew,|30/100\n|switch|p2a: B|Mu,|100/100").pokemon_stats
          "p2" "B" addKoDealt) "p2" "B" (addDealt (30 - 0))) "p1" "A" (addRecv (30 - 0)))
        "p2" "B").n_ko_dealt
      = (pval (runState "|switch|p1a: A|Mew,|30/100\n|switch|p2a: B|Mu,|100/100").pokemon_stats "p2" "B").n_ko_dealt + 1 ∧
    (pval (pstatsModify (pstatsModify (pstatsModify (runState "|switch|p1a: A|Mew,|30/100\n|switch|p2a: B|Mu,|100/100").pokemon_stats
          "p2" "B" addKoDealt) "p2" "B" (addDealt (30 - 0))) "p1" "A" (addRecv (30 - 0)))
        "p1" "A").damage_received
      = (pval (runState "|switch|p1a: A|Mew,|30/100\n|switch|p2a: B|Mu,|100/100").pokemon_stats "p1" "A").damage_received + (30 - 0) ∧
    dFind? (dSet (runState "|switch|p1a: A|Mew,|30/100\n|switch|p2a: B|Mu,|100/100").active_pokemon "p1" ⟨"A", 0⟩) "p1" = some ⟨"A", 0⟩ := by
  have ha := C5_faint_and_ko.1 (runState "|switch|p1a: A|Mew,|30/100\n|switch|p2a: B|Mu,|100/100") "p1a: A" "p1" "A" rfl
  have hb := C5_faint_and_ko.2 (runState "|switch|p1a: A|Mew,|30/100\n|switch|p2a: B|Mu,|100/100") "p1a: A" "0 fnt" "p1" "A" "0"
    ⟨"B", 100⟩ ⟨"A", 30⟩ rfl rfl rfl rfl rfl rfl rfl
  exact ⟨ha.2.1, ha.2.2.1 "p2" "B", rfl, rfl, hb.2.1, hb.2.2.2.1, hb.2.2.2.2⟩

/-- Counterexample for C3: a `-damage` line reporting MORE health than the
tracker holds (50 tracked, `80/100` reported) drives both damage counters
to `-30`; the delta is not clamped at zero and a stats field is
decremented. -/
theorem C3_counterexample :
    (pokeVal (runState "|switch|p1a: A|Mew,|50/100\n|switch|p2a: B|Mu,|100/100\n|-damage|p1a: A|80/100")
        "p2" "B").damage_dealt = -30 ∧
    (pokeVal (runState "|switch|p1a: A|Mew,|50/100\n|switch|p2a: B|Mu,|100/100\n|-damage|p1a: A|80/100")
        "p1" "A").damage_received = -30 ∧
    ((-30 : Int) < 0) := ⟨rfl, rfl, by decide⟩

/-- Claim C3 as amended: for a 4-part `-damage` line with a `new/total`
payload, the delta added to the attacker's `damage_dealt` and the victim's
`damage_received` is exactly `old_hp - new_hp`, with no clamping: a
negative computed delta is added as is, decrementing both counters. -/
theorem C3_unclamped_delta :
    ∀ (s : ParseState) (hdr f3 pid nick : String) (nh : Int) (att vict : Active),
      parse_log_header hdr = .ok (pid, nick) →
      dFind? s.active_pokemon (oppSide pid) = some att →
      dFind? s.active_pokemon pid = some vict →
      pyIn "fnt" f3 = false →
      pyIn "/" f3 = true →
      pyInt ((pySplit '/' f3).headD "") = .ok nh →
      dispatch s ["", "-damage", hdr, f3] = .ok
        { s with
          pokemon_stats := pstatsModify (pstatsModify s.pokemon_stats
              (oppSide pid) att.nickname (addDealt (vict.hp - nh))) pid nick
              (addRecv (vict.hp - nh)),
          active_pokemon := dSet s.active_pokemon pid ⟨nick, nh⟩,
          new_hp := some nh } ∧
      (pval (pstatsModify (pstatsModify s.pokemon_stats
            (oppSide pid) att.nickname (addDealt (vict.hp - nh))) pid nick
            (addRecv (vict.hp - nh))) (oppSide pid) att.nickname).damage_dealt
        = (pval s.pokemon_stats (oppSide pid) att.nickname).damage_dealt + (vict.hp - nh) ∧
      (pval (pstatsModify (pstatsModify s.pokemon_stats
            (oppSide pid) att.nickname (addDealt (vict.hp - nh))) pid nick
            (addRecv (vict.hp - nh))) pid nick).damage_received
        = (pval s.pokemon_stats pid nick).damage_received + (vict.hp - nh) := by
  intro s hdr f3 pid nick nh att vict hhdr hatt hvict hfnt hslash hi
  have hgA : pyDictGet s.active_pokemon (oppSide pid) = .ok att := by
    unfold pyDictGet
    rw [hatt]
  have hgV : pyDictGet s.active_pokemon pid = .ok vict := by
    unfold pyDictGet
    rw [hvict]
  refine ⟨?_, ?_, ?_⟩
  · rw [dispatch_eq_damageBranch
      (show (["", "-damage", hdr, f3] : List String).length ≠ 1 from
        (by decide : (4 : Nat) ≠ 1))
      (show tagOf ["", "-damage", hdr, f3] = "-damage" from rfl)]
    unfold damageBranch
    simp only [show pyIdx (["", "-damage", hdr, f3] : List String) 2 = .ok hdr from rfl,
      hhdr, hgA, hgV, exbind_okE]
    rw [if_pos (show (["", "-damage", hdr, f3] : List String).length = 4 from rfl)]
    simp only [show pyIdx (["", "-damage", hdr, f3] : List String) 3 = .ok f3 from rfl,
      exbind_okE]
    rw [if_neg (show ¬pyIn "fnt" f3 = true by rw [hfnt]; decide)]
    simp only [expure_bindE]
    rw [if_pos hslash]
    simp only [hi, exbind_okE, expure_bindE, pyLocal]
    rw [if_neg (show ¬(["", "-damage", hdr, f3] : List String).length = 5 from
      (by decide : ¬(4 : Nat) = 5))]
    simp only [expure_bindE, pyLocal, exbind_okE]
    rfl
  · rw [pval_pstatsModify, if_neg (fun hc => oppSide_ne pid hc.1),
      pval_pstatsModify, if_pos ⟨rfl, rfl⟩, addDealt_dd]
  · rw [pval_pstatsModify, if_pos ⟨rfl, rfl⟩, addRecv_dr,
      pval_pstatsModify, if_neg (fun hc => oppSide_ne pid hc.1.symm)]

/-- Witness for C3: from a state where A is tracked at 50 health, the line
payload `80/100` adds `50 - 80` to both counters. -/
theorem C3_unclamped_delta_witness :
    pyIn "fnt" "80/100" = false ∧
    pyIn "/" "80/100" = true ∧
    pyInt ((pySplit '/' "80/100").headD "") = .ok 80 ∧
    (pval (pstatsModify (pstatsModify
          (runState "|switch|p1a: A|Mew,|50/100\n|switch|p2a: B|Mu,|100/100").pokemon_stats
          "p2" "B" (addDealt (50 - 80))) "p1" "A" (addRecv (50 - 80)))
        "p2" "B").damage_dealt
      = (pval (runState "|switch|p1a: A|Mew,|50/100\n|switch|p2a: B|Mu,|100/100").pokemon_stats
          "p2" "B").damage_dealt + (50 - 80) ∧
    (pval (pstatsModify (pstatsModify
          (runState "|switch|p1a: A|Mew,|50/100\n|switch|p2a: B|Mu,|100/100").pokemon_stats
          "p2" "B" (addDealt (50 - 80))) "p1" "A" (addRecv (50 - 80)))
        "p1" "A").damage_received
      = (pval (runState "|switch|p1a: A|Mew,|50/100\n|switch|p2a: B|Mu,|100/100").pokemon_stats
          "p1" "A").damage_received + (50 - 80) := by
  have h := C3_unclamped_delta
    (runState "|switch|p1a: A|Mew,|50/100\n|switch|p2a: B|Mu,|100/100")
    "p1a: A" "80/100" "p1" "A" 80 ⟨"B", 100⟩ ⟨"A", 50⟩ rfl rfl rfl rfl rfl rfl
  exact ⟨rfl, rfl, rfl, h.2.1, h.2.2⟩
end PokemonScience
